import Mathlib

/-!
Verification development for the oTree behavioural-lab trading apps
(`multi_asset_trading` and `mini_pilot_trading`).

The Python source is shallowly embedded: machine floats become exact
rationals (`ℚ`), Python `round(x, 2)` and the oTree currency constructor
`cu` become rounding to an integer number of cents, integer fields become
`ℤ`, and the pseudo-random stream drawn from `random.Random(seed)` is
abstracted as two oracle streams (uniform draws for `random()`, standard
normal draws for the `z`-score inside `gauss(mu, sigma)`), consumed at
explicit positions of a running draw counter.
-/

namespace BehaviouralLab

/-- Python `round(x, 2)` / oTree `cu(x)` with `USE_POINTS = False`:
round to the nearest multiple of 1/100.  (CPython resolves ties to even;
Mathlib `round` resolves them upward.  No property proved below depends
on a tie, and every value the apps round is exact at or away from ties
after the price paths themselves are stored with two decimals.) -/
def round2 (x : ℚ) : ℚ := (round (100 * x) : ℤ) / 100

/-- The oTree currency constructor `cu` (real-world currency, two decimal
places): quantize to cents. -/
def cu (x : ℚ) : ℚ := round2 x

/-- Predicate: `x` is a whole number of cents (an exact two-decimal value). -/
def Cent (x : ℚ) : Prop := (100 * x).den = 1

instance (x : ℚ) : Decidable (Cent x) := by unfold Cent; infer_instance

/-- Abstraction of the Python `random.Random(seed)` stream: `u k` is the `k`-th
uniform draw produced by `random()` (a value in `[0, 1)`), `z k` is the
standard-normal deviate underlying the `k`-th call position when it is a
`gauss(mu, sigma)` call (so that call returns `mu + sigma * z k`).  A
single counter is threaded through all calls, mirroring the single
per-session stream consumed in a fixed order. -/
structure Rng where
  u : ℕ → ℚ
  z : ℕ → ℚ

end BehaviouralLab

namespace MultiAsset

open BehaviouralLab

/-- Current and next prices of the four assets, as fetched by
`price_*_now` / `price_*_next` for the running round. -/
structure Prices where
  p_a : ℚ
  p_b : ℚ
  p_c : ℚ
  p_d : ℚ
  p_a2 : ℚ
  p_b2 : ℚ
  p_c2 : ℚ
  p_d2 : ℚ

/-- Opening portfolio state of the round (`Player.cash`, `Player.qty_*`). -/
structure Portfolio where
  cash : ℚ
  qty_a : ℤ
  qty_b : ℤ
  qty_c : ℤ
  qty_d : ℤ

/-- The requested trades of the round (`Player.buy_*`, `Player.sell_*`). -/
structure Orders where
  buy_a : ℤ
  sell_a : ℤ
  buy_b : ℤ
  sell_b : ℤ
  buy_c : ℤ
  sell_c : ℤ
  buy_d : ℤ
  sell_d : ℤ

/-- All fields `Player.execute_trades` writes. -/
structure Outcome where
  cash : ℚ
  qty_a : ℤ
  qty_b : ℤ
  qty_c : ℤ
  qty_d : ℤ
  exec_sell_a : ℤ
  exec_sell_b : ℤ
  exec_sell_c : ℤ
  exec_sell_d : ℤ
  exec_buy_a : ℤ
  exec_buy_b : ℤ
  exec_buy_c : ℤ
  exec_buy_d : ℤ
  wealth_today : ℚ
  wealth_next : ℚ
  gain_from_price_move : ℚ

/-- The nested `buy_units` closure of `Player.execute_trades`, purified:
given the running cash, the requested units and the current price, it
returns the executed units and the updated cash.
`affordable = int(float(self.cash) // float(price))` is the floor of
`cash / price`. -/
def buy_units (cash : ℚ) (requested : ℤ) (price : ℚ) : ℤ × ℚ :=
  if price ≤ 0 then (0, cash)
  else
    let affordable : ℤ := ⌊cash / price⌋
    let units : ℤ := min requested affordable
    (units, cash - cu ((units : ℚ) * price))

/-- Embedding of `Player.execute_trades`: sells first (capped by holdings, credited in
one `cu`-sum), then buys in the fixed priority order A → B → C → D (each
capped by the cash remaining at that point), then the wealth fields. -/
def execute_trades (pr : Prices) (port : Portfolio) (od : Orders) : Outcome :=
  let s_a : ℤ := min od.sell_a port.qty_a
  let s_b : ℤ := min od.sell_b port.qty_b
  let s_c : ℤ := min od.sell_c port.qty_c
  let s_d : ℤ := min od.sell_d port.qty_d
  let cash1 : ℚ := port.cash +
    cu ((s_a : ℚ) * pr.p_a + (s_b : ℚ) * pr.p_b + (s_c : ℚ) * pr.p_c + (s_d : ℚ) * pr.p_d)
  let rA := buy_units cash1 od.buy_a pr.p_a
  let rB := buy_units rA.2 od.buy_b pr.p_b
  let rC := buy_units rB.2 od.buy_c pr.p_c
  let rD := buy_units rC.2 od.buy_d pr.p_d
  let q_a : ℤ := port.qty_a - s_a + rA.1
  let q_b : ℤ := port.qty_b - s_b + rB.1
  let q_c : ℤ := port.qty_c - s_c + rC.1
  let q_d : ℤ := port.qty_d - s_d + rD.1
  let wealth_today_raw : ℚ :=
    rD.2 + (q_a : ℚ) * pr.p_a + (q_b : ℚ) * pr.p_b + (q_c : ℚ) * pr.p_c + (q_d : ℚ) * pr.p_d
  let wealth_next_raw : ℚ :=
    rD.2 + (q_a : ℚ) * pr.p_a2 + (q_b : ℚ) * pr.p_b2 + (q_c : ℚ) * pr.p_c2 + (q_d : ℚ) * pr.p_d2
  { cash := rD.2
    qty_a := q_a, qty_b := q_b, qty_c := q_c, qty_d := q_d
    exec_sell_a := s_a, exec_sell_b := s_b, exec_sell_c := s_c, exec_sell_d := s_d
    exec_buy_a := rA.1, exec_buy_b := rB.1, exec_buy_c := rC.1, exec_buy_d := rD.1
    wealth_today := cu wealth_today_raw
    wealth_next := cu wealth_next_raw
    gain_from_price_move := cu (wealth_next_raw - wealth_today_raw) }

end MultiAsset

namespace MiniPilot

open BehaviouralLab

/-- Current and next prices of the two assets. -/
structure Prices where
  p_a : ℚ
  p_b : ℚ
  p_a2 : ℚ
  p_b2 : ℚ

/-- Opening portfolio state of the round. -/
structure Portfolio where
  cash : ℚ
  qty_a : ℤ
  qty_b : ℤ

/-- The requested trades of the round. -/
structure Orders where
  buy_a : ℤ
  sell_a : ℤ
  buy_b : ℤ
  sell_b : ℤ

/-- All trading fields `Player.execute_trades_and_carry_forward` writes
(the participant-vars / next-round persistence is state copying of
`cash`/`qty_*` and is represented by those fields themselves). -/
structure Outcome where
  cash : ℚ
  qty_a : ℤ
  qty_b : ℤ
  exec_sell_a : ℤ
  exec_sell_b : ℤ
  exec_buy_a : ℤ
  exec_buy_b : ℤ
  wealth_now : ℚ
  wealth_next : ℚ
  gain_from_prices : ℚ

/-- One buy step of `execute_trades_and_carry_forward`:
`max_buy = int(float(cash) // p) if p > 0 else 0`;
`exec_buy = min(requested, max_buy)`; `cash -= cu(exec_buy * p)`. -/
def buy_step (cash : ℚ) (requested : ℤ) (price : ℚ) : ℤ × ℚ :=
  let max_buy : ℤ := if 0 < price then ⌊cash / price⌋ else 0
  let e : ℤ := min requested max_buy
  (e, cash - cu ((e : ℚ) * price))

/-- Embedding of `Player.execute_trades_and_carry_forward`: sells first (capped by
holdings), then buy A, then buy B with the cash left after buying A,
then the wealth fields. -/
def execute_trades_and_carry_forward (pr : Prices) (port : Portfolio) (od : Orders) :
    Outcome :=
  let s_a : ℤ := min od.sell_a port.qty_a
  let s_b : ℤ := min od.sell_b port.qty_b
  let cash1 : ℚ := port.cash + cu ((s_a : ℚ) * pr.p_a + (s_b : ℚ) * pr.p_b)
  let rA := buy_step cash1 od.buy_a pr.p_a
  let rB := buy_step rA.2 od.buy_b pr.p_b
  let q_a : ℤ := port.qty_a - s_a + rA.1
  let q_b : ℤ := port.qty_b - s_b + rB.1
  let wealth_now_v : ℚ := cu (rB.2 + (q_a : ℚ) * pr.p_a + (q_b : ℚ) * pr.p_b)
  let wealth_next_v : ℚ := cu (rB.2 + (q_a : ℚ) * pr.p_a2 + (q_b : ℚ) * pr.p_b2)
  { cash := rB.2
    qty_a := q_a, qty_b := q_b
    exec_sell_a := s_a, exec_sell_b := s_b
    exec_buy_a := rA.1, exec_buy_b := rB.1
    wealth_now := wealth_now_v
    wealth_next := wealth_next_v
    gain_from_prices := wealth_next_v - wealth_now_v }

end MiniPilot

namespace BehaviouralLab

/-- Index of the element `random.sample` picks from the remaining pool
at draw position `k` (any in-range position; the claims below depend
only on the pick being a member of the pool). -/
def pickIdx (u : ℕ → ℚ) (k : ℕ) (pool : List ℕ) : ℕ :=
  (Int.toNat ⌊u k * (pool.length : ℚ)⌋) % pool.length

/-- Python stdlib `random.sample(pool, m)`, modelled by its contract:
it returns `m` distinct elements of `pool` (for `m ≤ len(pool)`),
chosen by successive uniform draws; each step picks one remaining
element and removes it.  The draw counter advances one position per
selected element. -/
def sampleAux (u : ℕ → ℚ) : ℕ → ℕ → List ℕ → List ℕ × ℕ
  | k, 0, _ => ([], k)
  | k, _ + 1, [] => ([], k)
  | k, m + 1, a :: as =>
    let x : ℕ := (a :: as).getD (pickIdx u k (a :: as)) 0
    let rest := sampleAux u (k + 1) m ((a :: as).erase x)
    (x :: rest.1, rest.2)

/-- The common tail of both "random subset, then top up to at least 2,
then `sorted(...)`" blocks (the jump-period selection of
`ensure_price_paths` in both apps and `ensure_urgency_rounds`): given the candidates and the
probability-selected first draw, top up to `MIN_B_JUMPS = 2` members by
`random.sample` from the remaining candidates and sort ascending. -/
def top_up_min2 (u : ℕ → ℚ) (k : ℕ) (cand first : List ℕ) : List ℕ × ℕ :=
  if first.length < 2 then
    let remaining := cand.filter (fun t => decide (t ∉ first))
    let s := sampleAux u k (2 - first.length) remaining
    (List.insertionSort (· ≤ ·) (first ++ s.1), s.2)
  else
    (List.insertionSort (· ≤ ·) first, k)

/-- The trap-asset return of one period.  This block is textually identical
in both apps (the mini app local parameters `MU_NORMAL`,
`SIGMA_NORMAL`, `CRASH_RETURN`, `CRASH_PROB`, `POSTJUMP_CRASH_PROB`,
`K_REVERT` equal the multi app `C.B_*` constants): a jump period
returns exactly `+0.50`; otherwise a crash draw (probability `0.45`
right after a jump, `0.08` else) returns `-0.45`; otherwise a Gaussian
move with mean-reversion towards the base price, clamped to
`[-0.60, 0.25]`.  Returns the realized return, the next draw position
and the new `prev_was_jump` flag. -/
def stepB (rng : Rng) (k : ℕ) (lb base : ℚ) (inJump prevJump : Bool) : ℚ × ℕ × Bool :=
  if inJump then (1 / 2, k, true)
  else
    let crash_p : ℚ := if prevJump then 45 / 100 else 8 / 100
    if rng.u k < crash_p then (-(45 / 100), k + 1, false)
    else
      let r0 : ℚ := -(2 / 100) + (10 / 100) * rng.z (k + 1)
      let r1 : ℚ := r0 + -(18 / 100) * (lb / base - 1)
      (max (min r1 (25 / 100)) (-(60 / 100)), k + 2, false)

end BehaviouralLab

namespace MultiAsset

open BehaviouralLab

/-- Constant `C.NUM_ROUNDS` of the multi-asset app. -/
def NUM_ROUNDS : ℕ := 25

/-- The jump-period pre-selection of `ensure_price_paths`: each round
`t` of `1..NUM_ROUNDS` enters with probability `LOTTERY_JUMP_PROB =
0.10` (one uniform draw per round, the `t`-th at position `k + (t-1)`),
then top-up to `MIN_B_JUMPS = 2` and `sorted(...)`. -/
def select_jump_periods (rng : Rng) (k : ℕ) : List ℕ × ℕ :=
  let first := (List.range' 1 NUM_ROUNDS).filter
    (fun t => decide (rng.u (k + (t - 1)) < 1 / 10))
  top_up_min2 rng.u (k + NUM_ROUNDS) (List.range' 1 NUM_ROUNDS) first

/-- The generated tails of the four price paths (one entry per period
appended to the start price) and the trap-asset return series: the body
of the `for period in range(1, C.NUM_ROUNDS + 1)` loop of
`ensure_price_paths`. -/
structure GenOut where
  pa : List ℚ
  pb : List ℚ
  pc : List ℚ
  pd : List ℚ
  rb : List ℚ

/-- The main generation loop of `ensure_price_paths`.  Per period, in
draw order: safe-asset Gaussian return, trap-asset return (`stepB`,
with `base_b = START_PRICE_B = 10`), coin-flip return, high-volatility
clamped Gaussian return; then the four price updates, each rounded to 2
decimals, with a `max(..., 0.10)` floor applied to B and D only. -/
def genLoop (rng : Rng) (jumps : List ℕ) :
    ℕ → ℕ → ℕ → ℚ → ℚ → ℚ → ℚ → Bool → GenOut
  | _, 0, _, _, _, _, _, _ => ⟨[], [], [], [], []⟩
  | period, fuel + 1, k, la, lb, lc, ld, prevJump =>
    let r_a : ℚ := 1 / 100 + (2 / 100) * rng.z k
    let sB := stepB rng (k + 1) lb 10 (decide (period ∈ jumps)) prevJump
    let k2 := sB.2.1
    let r_c : ℚ := if rng.u k2 < 1 / 2 then 8 / 100 else -(8 / 100)
    let r_d0 : ℚ := -(1 / 100) + (22 / 100) * rng.z (k2 + 1)
    let r_d : ℚ := max (min r_d0 (70 / 100)) (-(70 / 100))
    let la2 := round2 (la * (1 + r_a))
    let lb2 := round2 (max (lb * (1 + sB.1)) (1 / 10))
    let lc2 := round2 (lc * (1 + r_c))
    let ld2 := round2 (max (ld * (1 + r_d)) (1 / 10))
    let g := genLoop rng jumps (period + 1) fuel (k2 + 2) la2 lb2 lc2 ld2 sB.2.2
    ⟨la2 :: g.pa, lb2 :: g.pb, lc2 :: g.pc, ld2 :: g.pd, sB.1 :: g.rb⟩

/-- Everything `ensure_price_paths` stores into `session.vars`. -/
structure Paths where
  prices_a : List ℚ
  prices_b : List ℚ
  prices_c : List ℚ
  prices_d : List ℚ
  returns_b : List ℚ
  jump_periods_b : List ℕ

/-- The pure generation performed by `ensure_price_paths` on a fresh
session, as a function of the seeded random stream: start prices `10.0`,
jump-period selection, then `NUM_ROUNDS` loop periods. -/
def gen_price_paths (rng : Rng) : Paths :=
  let sel := select_jump_periods rng 0
  let g := genLoop rng sel.1 1 NUM_ROUNDS sel.2 10 10 10 10 false
  ⟨10 :: g.pa, 10 :: g.pb, 10 :: g.pc, 10 :: g.pd, g.rb, sel.1⟩

/-- Embedding of `Player.asset_b_jump_now`: `False` in round 1, otherwise whether
`returns_b[round_number - 2] == C.LOTTERY_JUMP_RETURN` (i.e. `0.50`). -/
def asset_b_jump_now (returns_b : List ℚ) (round_number : ℕ) : Bool :=
  if round_number = 1 then false
  else decide (returns_b.getD (round_number - 2) 0 = 1 / 2)

end MultiAsset

namespace MiniPilot

open BehaviouralLab

/-- Constant `C.NUM_ROUNDS` of the mini-pilot app. -/
def NUM_ROUNDS : ℕ := 20

/-- The jump-period pre-selection of `ensure_price_paths` (identical
block to the multi-asset app, with the `NUM_ROUNDS` of this app). -/
def select_jump_periods (rng : Rng) (k : ℕ) : List ℕ × ℕ :=
  let first := (List.range' 1 NUM_ROUNDS).filter
    (fun t => decide (rng.u (k + (t - 1)) < 1 / 10))
  top_up_min2 rng.u (k + NUM_ROUNDS) (List.range' 1 NUM_ROUNDS) first

/-- The generated tails of the two price paths and the trap-asset
return series. -/
structure GenOut where
  pa : List ℚ
  pb : List ℚ
  rb : List ℚ

/-- The main generation loop of `ensure_price_paths`: per period a
safe-asset Gaussian return and the trap-asset return (`stepB`, with
`BASE = START_PRICE_B = 10`), then the two price updates rounded to 2
decimals, with a `max(..., 0.10)` floor applied to B only. -/
def genLoop (rng : Rng) (jumps : List ℕ) : ℕ → ℕ → ℕ → ℚ → ℚ → Bool → GenOut
  | _, 0, _, _, _, _ => ⟨[], [], []⟩
  | period, fuel + 1, k, la, lb, prevJump =>
    let r_a : ℚ := 1 / 100 + (2 / 100) * rng.z k
    let sB := stepB rng (k + 1) lb 10 (decide (period ∈ jumps)) prevJump
    let la2 := round2 (la * (1 + r_a))
    let lb2 := round2 (max (lb * (1 + sB.1)) (1 / 10))
    let g := genLoop rng jumps (period + 1) fuel sB.2.1 la2 lb2 sB.2.2
    ⟨la2 :: g.pa, lb2 :: g.pb, sB.1 :: g.rb⟩

/-- Everything `ensure_price_paths` stores into `session.vars`. -/
structure Paths where
  prices_a : List ℚ
  prices_b : List ℚ
  returns_b : List ℚ
  jump_periods_b : List ℕ

/-- The pure generation performed by `ensure_price_paths` on a fresh
session: start prices `10.0`, jump-period selection, then `NUM_ROUNDS`
loop periods. -/
def gen_price_paths (rng : Rng) : Paths :=
  let sel := select_jump_periods rng 0
  let g := genLoop rng sel.1 1 NUM_ROUNDS sel.2 10 10 false
  ⟨10 :: g.pa, 10 :: g.pb, g.rb, sel.1⟩

/-- Pure selection of `ensure_urgency_rounds`, as a function of its own
seeded stream (`random.Random(str(session.code) + "_urgency")`):
candidates are rounds `2..NUM_ROUNDS` (round 1 has no previous round),
each drawn with probability `LOTTERY_JUMP_PROB = 0.10`, topped up to at
least 2 by `random.sample` and sorted. -/
def gen_urgency_rounds (rng : Rng) : List ℕ :=
  let candidates := List.range' 2 (NUM_ROUNDS - 1)
  let urgent := candidates.filter (fun r => decide (rng.u (r - 2) < 1 / 10))
  (top_up_min2 rng.u (NUM_ROUNDS - 1) candidates urgent).1

end MiniPilot

namespace MultiAsset

open BehaviouralLab

/-- The `session.vars` keys `ensure_price_paths` reads and writes,
plus the session code the RNG is seeded from. -/
structure Session where
  code : String
  prices_a : Option (List ℚ)
  prices_b : Option (List ℚ)
  prices_c : Option (List ℚ)
  prices_d : Option (List ℚ)
  returns_b : Option (List ℚ)
  jump_periods_b : Option (List ℕ)

/-- The presence guard of `ensure_price_paths`:
`all(k in session.vars for k in needed)` with
`needed = ("prices_a", "prices_b", "prices_c", "prices_d", "returns_b")`
(note: `jump_periods_b` is not part of the guard). -/
def populated (s : Session) : Bool :=
  s.prices_a.isSome && s.prices_b.isSome && s.prices_c.isSome &&
    s.prices_d.isSome && s.returns_b.isSome

/-- Embedding of `ensure_price_paths(session)`: return unchanged when the needed keys
are present, otherwise seed `random.Random(str(session.code))` (the
seed-to-stream map is the abstract `seedRng`) and store the generated
state. -/
def ensure_price_paths (seedRng : String → Rng) (s : Session) : Session :=
  if populated s then s
  else
    let g := gen_price_paths (seedRng s.code)
    { s with
      prices_a := some g.prices_a
      prices_b := some g.prices_b
      prices_c := some g.prices_c
      prices_d := some g.prices_d
      returns_b := some g.returns_b
      jump_periods_b := some g.jump_periods_b }

end MultiAsset

namespace MiniPilot

open BehaviouralLab

/-- The `session.vars` keys that the mini-pilot session-scoped
generators read and write, plus the session code. -/
structure Session where
  code : String
  prices_a : Option (List ℚ)
  prices_b : Option (List ℚ)
  returns_b : Option (List ℚ)
  jump_periods_b : Option (List ℕ)
  urgent_rounds_b : Option (List ℕ)

/-- The presence guard of `ensure_price_paths`:
`all(k in session.vars for k in ("prices_a", "prices_b", "returns_b"))`. -/
def populated (s : Session) : Bool :=
  s.prices_a.isSome && s.prices_b.isSome && s.returns_b.isSome

/-- Embedding of `ensure_price_paths(session)` of the mini-pilot app. -/
def ensure_price_paths (seedRng : String → Rng) (s : Session) : Session :=
  if populated s then s
  else
    let g := gen_price_paths (seedRng s.code)
    { s with
      prices_a := some g.prices_a
      prices_b := some g.prices_b
      returns_b := some g.returns_b
      jump_periods_b := some g.jump_periods_b }

/-- Embedding of `ensure_urgency_rounds(session)`: guarded by the presence of
`urgent_rounds_b`; seeds its own stream from
`str(session.code) + "_urgency"`. -/
def ensure_urgency_rounds (seedRng : String → Rng) (s : Session) : Session :=
  if s.urgent_rounds_b.isSome then s
  else { s with urgent_rounds_b := some (gen_urgency_rounds (seedRng (s.code ++ "_urgency"))) }

end MiniPilot

namespace MultiAsset

open BehaviouralLab

/-- The ambient contract of the inputs `execute_trades` runs on: prices
are two-decimal non-negative generator values, opening cash is a
non-negative currency amount, holdings are non-negative, and the form
fields (declared `min=0`) are non-negative. -/
def ValidInputs (pr : Prices) (port : Portfolio) (od : Orders) : Prop :=
  (Cent pr.p_a ∧ Cent pr.p_b ∧ Cent pr.p_c ∧ Cent pr.p_d) ∧
  (0 ≤ pr.p_a ∧ 0 ≤ pr.p_b ∧ 0 ≤ pr.p_c ∧ 0 ≤ pr.p_d) ∧
  (Cent port.cash ∧ 0 ≤ port.cash) ∧
  (0 ≤ port.qty_a ∧ 0 ≤ port.qty_b ∧ 0 ≤ port.qty_c ∧ 0 ≤ port.qty_d) ∧
  (0 ≤ od.buy_a ∧ 0 ≤ od.buy_b ∧ 0 ≤ od.buy_c ∧ 0 ≤ od.buy_d) ∧
  (0 ≤ od.sell_a ∧ 0 ≤ od.sell_b ∧ 0 ≤ od.sell_c ∧ 0 ≤ od.sell_d)

instance (pr : Prices) (port : Portfolio) (od : Orders) :
    Decidable (ValidInputs pr port od) := by
  unfold ValidInputs
  infer_instance

end MultiAsset

namespace MiniPilot

open BehaviouralLab

/-- The ambient contract of the inputs
`execute_trades_and_carry_forward` runs on. -/
def ValidInputs (pr : Prices) (port : Portfolio) (od : Orders) : Prop :=
  (Cent pr.p_a ∧ Cent pr.p_b) ∧ (0 ≤ pr.p_a ∧ 0 ≤ pr.p_b) ∧
  (Cent port.cash ∧ 0 ≤ port.cash) ∧
  (0 ≤ port.qty_a ∧ 0 ≤ port.qty_b) ∧
  (0 ≤ od.buy_a ∧ 0 ≤ od.buy_b) ∧ (0 ≤ od.sell_a ∧ 0 ≤ od.sell_b)

instance (pr : Prices) (port : Portfolio) (od : Orders) :
    Decidable (ValidInputs pr port od) := by
  unfold ValidInputs
  infer_instance

end MiniPilot

/-- A concrete seed-to-stream map used to instantiate the session-level
theorems on concrete inputs. -/
def witnessSeed : String → BehaviouralLab.Rng := fun _ => ⟨fun _ => 1 / 2, fun _ => 0⟩

/-- A multi-asset session whose price-path keys are already present. -/
def sessionM_populated : MultiAsset.Session :=
  ⟨"S1", some [10], some [10], some [10], some [10], some [], some []⟩

/-- A fresh multi-asset session. -/
def sessionM_empty : MultiAsset.Session := ⟨"S1", none, none, none, none, none, none⟩

/-- A mini-pilot session whose price-path keys are already present. -/
def sessionN_populated : MiniPilot.Session :=
  ⟨"S1", some [10], some [10], some [], some [], none⟩

/-- A fresh mini-pilot session. -/
def sessionN_empty : MiniPilot.Session := ⟨"S1", none, none, none, none, none⟩

/-- An adversarial stream: uniform draws `1/2` (validly inside
`[0, 1)`) and Gaussian z-scores `-100`, making the safe-asset period
return `0.01 + 0.02 * (-100) = -1.99`. -/
def badRng : BehaviouralLab.Rng := ⟨fun _ => 1 / 2, fun _ => -100⟩

open BehaviouralLab

namespace BehaviouralLab

theorem cent_iff (x : ℚ) : Cent x ↔ ∃ n : ℤ, x = (n : ℚ) / 100 := by
  constructor
  · intro h
    refine ⟨(100 * x).num, ?_⟩
    have h1 : ((100 * x).num : ℚ) = 100 * x := (Rat.den_eq_one_iff _).mp h
    rw [h1]
    ring
  · rintro ⟨n, rfl⟩
    unfold Cent
    rw [mul_div_cancel₀ (n : ℚ) (by norm_num)]
    exact Rat.den_intCast n

theorem cu_eq_self {x : ℚ} (h : Cent x) : cu x = x := by
  obtain ⟨n, rfl⟩ := (cent_iff x).mp h
  unfold cu round2
  rw [mul_div_cancel₀ (n : ℚ) (by norm_num), round_intCast]

theorem Cent.add {x y : ℚ} (hx : Cent x) (hy : Cent y) : Cent (x + y) := by
  obtain ⟨a, rfl⟩ := (cent_iff x).mp hx
  obtain ⟨b, rfl⟩ := (cent_iff y).mp hy
  exact (cent_iff _).mpr ⟨a + b, by push_cast; ring⟩

theorem Cent.sub {x y : ℚ} (hx : Cent x) (hy : Cent y) : Cent (x - y) := by
  obtain ⟨a, rfl⟩ := (cent_iff x).mp hx
  obtain ⟨b, rfl⟩ := (cent_iff y).mp hy
  exact (cent_iff _).mpr ⟨a - b, by push_cast; ring⟩

theorem Cent.intMul {x : ℚ} (n : ℤ) (hx : Cent x) : Cent ((n : ℚ) * x) := by
  obtain ⟨a, rfl⟩ := (cent_iff x).mp hx
  exact (cent_iff _).mpr ⟨n * a, by push_cast; ring⟩

theorem round2_floor {x : ℚ} (h : (1 : ℚ) / 10 ≤ x) : (1 : ℚ) / 10 ≤ round2 x := by
  unfold round2
  have h10 : (10 : ℤ) ≤ round (100 * x) := by
    calc (10 : ℤ) = round ((10 : ℤ) : ℚ) := (round_intCast 10).symm
    _ ≤ round (100 * x) := by
        simp only [round_eq]
        exact Int.floor_le_floor (by push_cast; linarith)
  have h10q : (10 : ℚ) ≤ ((round (100 * x) : ℤ) : ℚ) := by exact_mod_cast h10
  rw [div_le_div_iff₀ (by norm_num) (by norm_num)]
  linarith

theorem cent_cu (x : ℚ) : Cent (cu x) :=
  (cent_iff _).mpr ⟨round (100 * x), rfl⟩

theorem cu_zero : cu 0 = 0 := by
  unfold cu round2
  norm_num

end BehaviouralLab

namespace MultiAsset

theorem buy_units_spec (cash : ℚ) (req : ℤ) (p : ℚ) (hp : Cent p) (hp0 : 0 ≤ p)
    (hc : 0 ≤ cash) (hr : 0 ≤ req) :
    0 ≤ (buy_units cash req p).1 ∧ (buy_units cash req p).1 ≤ req ∧
      (buy_units cash req p).2 = cash - ((buy_units cash req p).1 : ℚ) * p ∧
      0 ≤ (buy_units cash req p).2 := by
  unfold buy_units
  split_ifs with h
  · exact ⟨le_refl 0, hr, by simp, hc⟩
  · have hp' : 0 < p := not_le.mp h
    dsimp only
    have hu0 : 0 ≤ min req ⌊cash / p⌋ :=
      le_min hr (Int.floor_nonneg.mpr (div_nonneg hc hp0))
    have hcu : cu (((min req ⌊cash / p⌋ : ℤ) : ℚ) * p) = ((min req ⌊cash / p⌋ : ℤ) : ℚ) * p :=
      cu_eq_self (hp.intMul _)
    have hle : ((min req ⌊cash / p⌋ : ℤ) : ℚ) * p ≤ cash := by
      have h1 : ((min req ⌊cash / p⌋ : ℤ) : ℚ) ≤ ((⌊cash / p⌋ : ℤ) : ℚ) := by
        exact_mod_cast min_le_right req _
      have h2 : ((⌊cash / p⌋ : ℤ) : ℚ) ≤ cash / p := Int.floor_le _
      calc ((min req ⌊cash / p⌋ : ℤ) : ℚ) * p ≤ (cash / p) * p :=
            mul_le_mul_of_nonneg_right (h1.trans h2) hp0
      _ = cash := div_mul_cancel₀ cash (ne_of_gt hp')
    exact ⟨hu0, min_le_left _ _, by rw [hcu], by rw [hcu]; linarith⟩

end MultiAsset

namespace MiniPilot

theorem buy_step_spec (cash : ℚ) (req : ℤ) (p : ℚ) (hp : Cent p) (hp0 : 0 ≤ p)
    (hc : 0 ≤ cash) (hr : 0 ≤ req) :
    0 ≤ (buy_step cash req p).1 ∧ (buy_step cash req p).1 ≤ req ∧
      (buy_step cash req p).2 = cash - ((buy_step cash req p).1 : ℚ) * p ∧
      0 ≤ (buy_step cash req p).2 := by
  unfold buy_step
  split_ifs with h
  · dsimp only
    have hu0 : 0 ≤ min req ⌊cash / p⌋ :=
      le_min hr (Int.floor_nonneg.mpr (div_nonneg hc hp0))
    have hcu : cu (((min req ⌊cash / p⌋ : ℤ) : ℚ) * p) = ((min req ⌊cash / p⌋ : ℤ) : ℚ) * p :=
      cu_eq_self (hp.intMul _)
    have hle : ((min req ⌊cash / p⌋ : ℤ) : ℚ) * p ≤ cash := by
      have h1 : ((min req ⌊cash / p⌋ : ℤ) : ℚ) ≤ ((⌊cash / p⌋ : ℤ) : ℚ) := by
        exact_mod_cast min_le_right req _
      have h2 : ((⌊cash / p⌋ : ℤ) : ℚ) ≤ cash / p := Int.floor_le _
      calc ((min req ⌊cash / p⌋ : ℤ) : ℚ) * p ≤ (cash / p) * p :=
            mul_le_mul_of_nonneg_right (h1.trans h2) hp0
      _ = cash := div_mul_cancel₀ cash (ne_of_gt h)
    exact ⟨hu0, min_le_left _ _, by rw [hcu], by rw [hcu]; linarith⟩
  · dsimp only
    rw [min_eq_right hr]
    refine ⟨le_refl 0, hr, ?_, ?_⟩
    · norm_num [cu_zero]
    · norm_num [cu_zero]
      exact hc

end MiniPilot

namespace MultiAsset

/-- Master characterization of `Player.execute_trades` under the ambient
invariants (two-decimal non-negative prices from the generator,
two-decimal non-negative opening cash, non-negative holdings and
requests): sell caps, buy caps, non-negativity, the budget bound of the
buy phase, the wealth identity and mark-to-market conservation. -/
theorem execute_trades_spec (pr : Prices) (port : Portfolio) (od : Orders) (o : Outcome)
    (ho : o = execute_trades pr port od)
    (hpa : Cent pr.p_a) (hpb : Cent pr.p_b) (hpc : Cent pr.p_c) (hpd : Cent pr.p_d)
    (hpa0 : 0 ≤ pr.p_a) (hpb0 : 0 ≤ pr.p_b) (hpc0 : 0 ≤ pr.p_c) (hpd0 : 0 ≤ pr.p_d)
    (hcc : Cent port.cash) (hcash : 0 ≤ port.cash)
    (hqa : 0 ≤ port.qty_a) (hqb : 0 ≤ port.qty_b) (hqc : 0 ≤ port.qty_c) (hqd : 0 ≤ port.qty_d)
    (hba : 0 ≤ od.buy_a) (hbb : 0 ≤ od.buy_b) (hbc : 0 ≤ od.buy_c) (hbd : 0 ≤ od.buy_d)
    (hsa : 0 ≤ od.sell_a) (hsb : 0 ≤ od.sell_b) (hsc : 0 ≤ od.sell_c) (hsd : 0 ≤ od.sell_d) :
    (o.exec_sell_a = min od.sell_a port.qty_a ∧ o.exec_sell_b = min od.sell_b port.qty_b ∧
      o.exec_sell_c = min od.sell_c port.qty_c ∧ o.exec_sell_d = min od.sell_d port.qty_d) ∧
    (o.exec_buy_a ≤ od.buy_a ∧ o.exec_buy_b ≤ od.buy_b ∧
      o.exec_buy_c ≤ od.buy_c ∧ o.exec_buy_d ≤ od.buy_d) ∧
    (0 ≤ o.exec_buy_a ∧ 0 ≤ o.exec_buy_b ∧ 0 ≤ o.exec_buy_c ∧ 0 ≤ o.exec_buy_d) ∧
    (0 ≤ o.qty_a ∧ 0 ≤ o.qty_b ∧ 0 ≤ o.qty_c ∧ 0 ≤ o.qty_d) ∧
    0 ≤ o.cash ∧
    ((o.exec_buy_a : ℚ) * pr.p_a + (o.exec_buy_b : ℚ) * pr.p_b +
        (o.exec_buy_c : ℚ) * pr.p_c + (o.exec_buy_d : ℚ) * pr.p_d ≤
      port.cash + ((min od.sell_a port.qty_a : ℤ) : ℚ) * pr.p_a +
        ((min od.sell_b port.qty_b : ℤ) : ℚ) * pr.p_b +
        ((min od.sell_c port.qty_c : ℤ) : ℚ) * pr.p_c +
        ((min od.sell_d port.qty_d : ℤ) : ℚ) * pr.p_d) ∧
    (o.wealth_today = o.cash + (o.qty_a : ℚ) * pr.p_a + (o.qty_b : ℚ) * pr.p_b +
      (o.qty_c : ℚ) * pr.p_c + (o.qty_d : ℚ) * pr.p_d) ∧
    (o.cash + (o.qty_a : ℚ) * pr.p_a + (o.qty_b : ℚ) * pr.p_b +
        (o.qty_c : ℚ) * pr.p_c + (o.qty_d : ℚ) * pr.p_d =
      port.cash + (port.qty_a : ℚ) * pr.p_a + (port.qty_b : ℚ) * pr.p_b +
        (port.qty_c : ℚ) * pr.p_c + (port.qty_d : ℚ) * pr.p_d) := by
  subst ho
  dsimp only [execute_trades]
  set sA : ℤ := min od.sell_a port.qty_a with hsAdef
  set sB : ℤ := min od.sell_b port.qty_b with hsBdef
  set sC : ℤ := min od.sell_c port.qty_c with hsCdef
  set sD : ℤ := min od.sell_d port.qty_d with hsDdef
  set c1 : ℚ := port.cash +
    cu ((sA : ℚ) * pr.p_a + (sB : ℚ) * pr.p_b + (sC : ℚ) * pr.p_c + (sD : ℚ) * pr.p_d)
    with hc1def
  set rA := buy_units c1 od.buy_a pr.p_a with hrA
  set rB := buy_units rA.2 od.buy_b pr.p_b with hrB
  set rC := buy_units rB.2 od.buy_c pr.p_c with hrC
  set rD := buy_units rC.2 od.buy_d pr.p_d with hrD
  have hsA0 : (0 : ℤ) ≤ sA := by rw [hsAdef]; exact le_min hsa hqa
  have hsB0 : (0 : ℤ) ≤ sB := by rw [hsBdef]; exact le_min hsb hqb
  have hsC0 : (0 : ℤ) ≤ sC := by rw [hsCdef]; exact le_min hsc hqc
  have hsD0 : (0 : ℤ) ≤ sD := by rw [hsDdef]; exact le_min hsd hqd
  have hsAq : sA ≤ port.qty_a := by rw [hsAdef]; exact min_le_right _ _
  have hsBq : sB ≤ port.qty_b := by rw [hsBdef]; exact min_le_right _ _
  have hsCq : sC ≤ port.qty_c := by rw [hsCdef]; exact min_le_right _ _
  have hsDq : sD ≤ port.qty_d := by rw [hsDdef]; exact min_le_right _ _
  have hcuS : cu ((sA : ℚ) * pr.p_a + (sB : ℚ) * pr.p_b + (sC : ℚ) * pr.p_c +
      (sD : ℚ) * pr.p_d) =
      (sA : ℚ) * pr.p_a + (sB : ℚ) * pr.p_b + (sC : ℚ) * pr.p_c + (sD : ℚ) * pr.p_d :=
    cu_eq_self ((((hpa.intMul sA).add (hpb.intMul sB)).add (hpc.intMul sC)).add
      (hpd.intMul sD))
  have hc1val : c1 = port.cash + ((sA : ℚ) * pr.p_a + (sB : ℚ) * pr.p_b +
      (sC : ℚ) * pr.p_c + (sD : ℚ) * pr.p_d) := by rw [hc1def, hcuS]
  have hc1 : 0 ≤ c1 := by
    rw [hc1val]
    have m1 : 0 ≤ (sA : ℚ) * pr.p_a := mul_nonneg (by exact_mod_cast hsA0) hpa0
    have m2 : 0 ≤ (sB : ℚ) * pr.p_b := mul_nonneg (by exact_mod_cast hsB0) hpb0
    have m3 : 0 ≤ (sC : ℚ) * pr.p_c := mul_nonneg (by exact_mod_cast hsC0) hpc0
    have m4 : 0 ≤ (sD : ℚ) * pr.p_d := mul_nonneg (by exact_mod_cast hsD0) hpd0
    linarith
  have hA := buy_units_spec c1 od.buy_a pr.p_a hpa hpa0 hc1 hba
  rw [← hrA] at hA
  obtain ⟨hA0, hAle, hAeq, hAc⟩ := hA
  have hB := buy_units_spec rA.2 od.buy_b pr.p_b hpb hpb0 hAc hbb
  rw [← hrB] at hB
  obtain ⟨hB0, hBle, hBeq, hBc⟩ := hB
  have hC := buy_units_spec rB.2 od.buy_c pr.p_c hpc hpc0 hBc hbc
  rw [← hrC] at hC
  obtain ⟨hC0, hCle, hCeq, hCc⟩ := hC
  have hD := buy_units_spec rC.2 od.buy_d pr.p_d hpd hpd0 hCc hbd
  rw [← hrD] at hD
  obtain ⟨hD0, hDle, hDeq, hDc⟩ := hD
  have hc1c : Cent c1 := by rw [hc1def]; exact hcc.add (cent_cu _)
  have hrAc : Cent rA.2 := by rw [hAeq]; exact hc1c.sub (hpa.intMul _)
  have hrBc : Cent rB.2 := by rw [hBeq]; exact hrAc.sub (hpb.intMul _)
  have hrCc : Cent rC.2 := by rw [hCeq]; exact hrBc.sub (hpc.intMul _)
  have hrDc : Cent rD.2 := by rw [hDeq]; exact hrCc.sub (hpd.intMul _)
  refine ⟨⟨rfl, rfl, rfl, rfl⟩, ⟨hAle, hBle, hCle, hDle⟩, ⟨hA0, hB0, hC0, hD0⟩,
    ⟨by omega, by omega, by omega, by omega⟩, hDc, ?_, ?_, ?_⟩
  · linarith [hAeq, hBeq, hCeq, hDeq, hDc, hc1val]
  · exact cu_eq_self ((((hrDc.add (Cent.intMul _ hpa)).add (Cent.intMul _ hpb)).add
      (Cent.intMul _ hpc)).add (Cent.intMul _ hpd))
  · rw [hDeq, hCeq, hBeq, hAeq, hc1val]
    push_cast
    ring

end MultiAsset

namespace MiniPilot

/-- Master characterization of `Player.execute_trades_and_carry_forward`
(the trading part) under the ambient invariants: sell caps, buy caps,
non-negativity, the budget bound of the buy phase, the wealth identity
and mark-to-market conservation. -/
theorem execute_spec (pr : Prices) (port : Portfolio) (od : Orders) (o : Outcome)
    (ho : o = execute_trades_and_carry_forward pr port od)
    (hpa : Cent pr.p_a) (hpb : Cent pr.p_b)
    (hpa0 : 0 ≤ pr.p_a) (hpb0 : 0 ≤ pr.p_b)
    (hcc : Cent port.cash) (hcash : 0 ≤ port.cash)
    (hqa : 0 ≤ port.qty_a) (hqb : 0 ≤ port.qty_b)
    (hba : 0 ≤ od.buy_a) (hbb : 0 ≤ od.buy_b)
    (hsa : 0 ≤ od.sell_a) (hsb : 0 ≤ od.sell_b) :
    (o.exec_sell_a = min od.sell_a port.qty_a ∧ o.exec_sell_b = min od.sell_b port.qty_b) ∧
    (o.exec_buy_a ≤ od.buy_a ∧ o.exec_buy_b ≤ od.buy_b) ∧
    (0 ≤ o.exec_buy_a ∧ 0 ≤ o.exec_buy_b) ∧
    (0 ≤ o.qty_a ∧ 0 ≤ o.qty_b) ∧
    0 ≤ o.cash ∧
    ((o.exec_buy_a : ℚ) * pr.p_a + (o.exec_buy_b : ℚ) * pr.p_b ≤
      port.cash + ((min od.sell_a port.qty_a : ℤ) : ℚ) * pr.p_a +
        ((min od.sell_b port.qty_b : ℤ) : ℚ) * pr.p_b) ∧
    (o.wealth_now = o.cash + (o.qty_a : ℚ) * pr.p_a + (o.qty_b : ℚ) * pr.p_b) ∧
    (o.cash + (o.qty_a : ℚ) * pr.p_a + (o.qty_b : ℚ) * pr.p_b =
      port.cash + (port.qty_a : ℚ) * pr.p_a + (port.qty_b : ℚ) * pr.p_b) := by
  subst ho
  dsimp only [execute_trades_and_carry_forward]
  set sA : ℤ := min od.sell_a port.qty_a with hsAdef
  set sB : ℤ := min od.sell_b port.qty_b with hsBdef
  set c1 : ℚ := port.cash + cu ((sA : ℚ) * pr.p_a + (sB : ℚ) * pr.p_b) with hc1def
  set rA := buy_step c1 od.buy_a pr.p_a with hrA
  set rB := buy_step rA.2 od.buy_b pr.p_b with hrB
  have hsA0 : (0 : ℤ) ≤ sA := by rw [hsAdef]; exact le_min hsa hqa
  have hsB0 : (0 : ℤ) ≤ sB := by rw [hsBdef]; exact le_min hsb hqb
  have hsAq : sA ≤ port.qty_a := by rw [hsAdef]; exact min_le_right _ _
  have hsBq : sB ≤ port.qty_b := by rw [hsBdef]; exact min_le_right _ _
  have hcuS : cu ((sA : ℚ) * pr.p_a + (sB : ℚ) * pr.p_b) =
      (sA : ℚ) * pr.p_a + (sB : ℚ) * pr.p_b :=
    cu_eq_self ((hpa.intMul sA).add (hpb.intMul sB))
  have hc1val : c1 = port.cash + ((sA : ℚ) * pr.p_a + (sB : ℚ) * pr.p_b) := by
    rw [hc1def, hcuS]
  have hc1 : 0 ≤ c1 := by
    rw [hc1val]
    have m1 : 0 ≤ (sA : ℚ) * pr.p_a := mul_nonneg (by exact_mod_cast hsA0) hpa0
    have m2 : 0 ≤ (sB : ℚ) * pr.p_b := mul_nonneg (by exact_mod_cast hsB0) hpb0
    linarith
  have hA := buy_step_spec c1 od.buy_a pr.p_a hpa hpa0 hc1 hba
  rw [← hrA] at hA
  obtain ⟨hA0, hAle, hAeq, hAc⟩ := hA
  have hB := buy_step_spec rA.2 od.buy_b pr.p_b hpb hpb0 hAc hbb
  rw [← hrB] at hB
  obtain ⟨hB0, hBle, hBeq, hBc⟩ := hB
  have hc1c : Cent c1 := by rw [hc1def]; exact hcc.add (cent_cu _)
  have hrAc : Cent rA.2 := by rw [hAeq]; exact hc1c.sub (hpa.intMul _)
  have hrBc : Cent rB.2 := by rw [hBeq]; exact hrAc.sub (hpb.intMul _)
  refine ⟨⟨rfl, rfl⟩, ⟨hAle, hBle⟩, ⟨hA0, hB0⟩, ⟨by omega, by omega⟩, hBc, ?_, ?_, ?_⟩
  · linarith [hAeq, hBeq, hBc, hc1val]
  · exact cu_eq_self ((hrBc.add (Cent.intMul _ hpa)).add (Cent.intMul _ hpb))
  · rw [hBeq, hAeq, hc1val]
    push_cast
    ring

end MiniPilot

namespace BehaviouralLab

theorem pick_mem (u : ℕ → ℚ) (k : ℕ) (pool : List ℕ) (h : pool ≠ []) :
    pool.getD (pickIdx u k pool) 0 ∈ pool := by
  have hi : pickIdx u k pool < pool.length := by
    unfold pickIdx
    exact Nat.mod_lt _ (List.length_pos.mpr h)
  rw [List.getD_eq_getElem _ 0 hi]
  exact List.getElem_mem hi

theorem sampleAux_subset (u : ℕ → ℚ) :
    ∀ (m k : ℕ) (pool : List ℕ), (sampleAux u k m pool).1 ⊆ pool := by
  intro m
  induction m with
  | zero => intro k pool; simp [sampleAux]
  | succ m ih =>
    intro k pool
    match pool with
    | [] => simp [sampleAux]
    | a :: as =>
      simp only [sampleAux]
      intro t ht
      rcases List.mem_cons.mp ht with h | h
      · subst h
        exact pick_mem u k (a :: as) (by simp)
      · exact List.erase_subset _ _ (ih (k + 1) ((a :: as).erase _) h)

theorem sampleAux_nodup (u : ℕ → ℚ) :
    ∀ (m k : ℕ) (pool : List ℕ), pool.Nodup → (sampleAux u k m pool).1.Nodup := by
  intro m
  induction m with
  | zero => intro k pool _; simp [sampleAux]
  | succ m ih =>
    intro k pool hp
    match pool with
    | [] => simp [sampleAux]
    | a :: as =>
      simp only [sampleAux, List.nodup_cons]
      constructor
      · intro hmem
        have hx := sampleAux_subset u m (k + 1) ((a :: as).erase _) hmem
        rw [hp.mem_erase_iff] at hx
        exact hx.1 rfl
      · exact ih (k + 1) _ (hp.erase _)

theorem sampleAux_length (u : ℕ → ℚ) :
    ∀ (m k : ℕ) (pool : List ℕ), m ≤ pool.length → (sampleAux u k m pool).1.length = m := by
  intro m
  induction m with
  | zero => intro k pool _; simp [sampleAux]
  | succ m ih =>
    intro k pool hm
    match pool with
    | [] => simp at hm
    | a :: as =>
      simp only [sampleAux]
      rw [List.length_cons,
        ih (k + 1) _ (by
          rw [List.length_erase_of_mem (pick_mem u k (a :: as) (by simp))]
          exact Nat.le_sub_one_of_lt hm)]

theorem top_up_min2_spec (u : ℕ → ℚ) (k : ℕ) (cand first : List ℕ)
    (hcN : cand.Nodup) (hfN : first.Nodup) (hsub : first ⊆ cand)
    (h2 : 2 ≤ cand.length) :
    ((top_up_min2 u k cand first).1).Nodup ∧
    ((top_up_min2 u k cand first).1).Sorted (· ≤ ·) ∧
    2 ≤ ((top_up_min2 u k cand first).1).length ∧
    (top_up_min2 u k cand first).1 ⊆ cand := by
  unfold top_up_min2
  split_ifs with hlt
  · set remaining := cand.filter (fun t => decide (t ∉ first)) with hrem
    have hremN : remaining.Nodup := hcN.filter _
    have hremsub : remaining ⊆ cand := List.filter_subset' _
    have hremlen : 2 - first.length ≤ remaining.length := by
      have hsplit := List.length_eq_length_filter_add
        (l := cand) (fun t => decide (t ∉ first))
      have hinter : cand.filter (fun t => !(decide (t ∉ first))) ⊆ first := by
        intro t ht
        rw [List.mem_filter] at ht
        simpa using ht.2
      have hinterN : (cand.filter (fun t => !(decide (t ∉ first)))).Nodup := hcN.filter _
      have hle := (hinterN.subperm hinter).length_le
      rw [← hrem] at hsplit
      omega
    have hssub : (sampleAux u k (2 - first.length) remaining).1 ⊆ remaining :=
      sampleAux_subset u _ k remaining
    have hsN : (sampleAux u k (2 - first.length) remaining).1.Nodup :=
      sampleAux_nodup u _ k remaining hremN
    have hdisj : first.Disjoint (sampleAux u k (2 - first.length) remaining).1 := by
      intro t htf hts
      have hmem := hssub hts
      rw [hrem, List.mem_filter] at hmem
      have hni : t ∉ first := by simpa using hmem.2
      exact hni htf
    have happN : (first ++ (sampleAux u k (2 - first.length) remaining).1).Nodup :=
      hfN.append hsN hdisj
    have hlen : (first ++ (sampleAux u k (2 - first.length) remaining).1).length = 2 := by
      rw [List.length_append, sampleAux_length u _ k remaining hremlen]
      omega
    have perm := List.perm_insertionSort (· ≤ ·)
      (first ++ (sampleAux u k (2 - first.length) remaining).1)
    refine ⟨perm.nodup_iff.mpr happN, List.sorted_insertionSort _ _,
      by rw [perm.length_eq, hlen], ?_⟩
    intro t ht
    rcases List.mem_append.mp (perm.subset ht) with h | h
    · exact hsub h
    · exact hremsub (hssub h)
  · have perm := List.perm_insertionSort (· ≤ ·) first
    refine ⟨perm.nodup_iff.mpr hfN, List.sorted_insertionSort _ _,
      by rw [perm.length_eq]; omega, fun t ht => hsub (perm.subset ht)⟩

theorem stepB_jump (rng : Rng) (k : ℕ) (lb base : ℚ) (prevJump : Bool) :
    (stepB rng k lb base true prevJump).1 = 1 / 2 := by
  unfold stepB
  simp

theorem stepB_nonjump (rng : Rng) (k : ℕ) (lb base : ℚ) (prevJump : Bool) :
    (stepB rng k lb base false prevJump).1 = -(45 / 100) ∨
      (stepB rng k lb base false prevJump).1 ≤ 25 / 100 := by
  unfold stepB
  simp only [Bool.false_eq_true, if_false]
  split_ifs
  all_goals first
    | exact Or.inl rfl
    | exact Or.inr (max_le (min_le_right _ _) (by norm_num))

theorem stepB_nonjump_ne (rng : Rng) (k : ℕ) (lb base : ℚ) (prevJump : Bool) :
    (stepB rng k lb base false prevJump).1 ≠ 1 / 2 := by
  rcases stepB_nonjump rng k lb base prevJump with h | h
  · rw [h]; norm_num
  · intro he; rw [he] at h; norm_num at h

end BehaviouralLab

namespace MultiAsset

theorem genLoop_pb_floor (rng : Rng) (jumps : List ℕ) :
    ∀ (fuel period k : ℕ) (la lb lc ld : ℚ) (pj : Bool),
      ∀ x ∈ (genLoop rng jumps period fuel k la lb lc ld pj).pb, 1 / 10 ≤ x := by
  intro fuel
  induction fuel with
  | zero => intro period k la lb lc ld pj x hx; simp [genLoop] at hx
  | succ fuel ih =>
    intro period k la lb lc ld pj x hx
    simp only [genLoop] at hx
    rcases List.mem_cons.mp hx with h | h
    · subst h
      exact round2_floor (le_max_right _ _)
    · exact ih _ _ _ _ _ _ _ x h

theorem genLoop_pd_floor (rng : Rng) (jumps : List ℕ) :
    ∀ (fuel period k : ℕ) (la lb lc ld : ℚ) (pj : Bool),
      ∀ x ∈ (genLoop rng jumps period fuel k la lb lc ld pj).pd, 1 / 10 ≤ x := by
  intro fuel
  induction fuel with
  | zero => intro period k la lb lc ld pj x hx; simp [genLoop] at hx
  | succ fuel ih =>
    intro period k la lb lc ld pj x hx
    simp only [genLoop] at hx
    rcases List.mem_cons.mp hx with h | h
    · subst h
      exact round2_floor (le_max_right _ _)
    · exact ih _ _ _ _ _ _ _ x h

theorem genLoop_rb_length (rng : Rng) (jumps : List ℕ) :
    ∀ (fuel period k : ℕ) (la lb lc ld : ℚ) (pj : Bool),
      (genLoop rng jumps period fuel k la lb lc ld pj).rb.length = fuel := by
  intro fuel
  induction fuel with
  | zero => intro period k la lb lc ld pj; simp [genLoop]
  | succ fuel ih =>
    intro period k la lb lc ld pj
    simp only [genLoop, List.length_cons]
    rw [ih]

theorem genLoop_rb_jump (rng : Rng) (jumps : List ℕ) :
    ∀ (fuel i period k : ℕ) (la lb lc ld : ℚ) (pj : Bool), i < fuel →
      (period + i) ∈ jumps →
      (genLoop rng jumps period fuel k la lb lc ld pj).rb.getD i 0 = 1 / 2 := by
  intro fuel
  induction fuel with
  | zero => intro i period k la lb lc ld pj hi; omega
  | succ fuel ih =>
    intro i period k la lb lc ld pj hi hmem
    simp only [genLoop]
    match i with
    | 0 =>
      rw [List.getD_cons_zero]
      rw [Nat.add_zero] at hmem
      rw [decide_eq_true hmem]
      exact stepB_jump rng _ lb 10 pj
    | i + 1 =>
      rw [List.getD_cons_succ]
      have hmem2 : (period + 1) + i ∈ jumps := by
        have : period + 1 + i = period + (i + 1) := by omega
        rw [this]; exact hmem
      exact ih i (period + 1) _ _ _ _ _ _ (by omega) hmem2

theorem genLoop_rb_nonjump (rng : Rng) (jumps : List ℕ) :
    ∀ (fuel i period k : ℕ) (la lb lc ld : ℚ) (pj : Bool), i < fuel →
      (period + i) ∉ jumps →
      (genLoop rng jumps period fuel k la lb lc ld pj).rb.getD i 0 ≠ 1 / 2 := by
  intro fuel
  induction fuel with
  | zero => intro i period k la lb lc ld pj hi; omega
  | succ fuel ih =>
    intro i period k la lb lc ld pj hi hmem
    simp only [genLoop]
    match i with
    | 0 =>
      rw [List.getD_cons_zero]
      rw [Nat.add_zero] at hmem
      rw [decide_eq_false hmem]
      exact stepB_nonjump_ne rng _ lb 10 pj
    | i + 1 =>
      rw [List.getD_cons_succ]
      have hmem2 : (period + 1) + i ∉ jumps := by
        have : period + 1 + i = period + (i + 1) := by omega
        rw [this]; exact hmem
      exact ih i (period + 1) _ _ _ _ _ _ (by omega) hmem2

end MultiAsset

namespace MiniPilot

theorem mini_genLoop_pb_floor (rng : Rng) (jumps : List ℕ) :
    ∀ (fuel period k : ℕ) (la lb : ℚ) (pj : Bool),
      ∀ x ∈ (genLoop rng jumps period fuel k la lb pj).pb, 1 / 10 ≤ x := by
  intro fuel
  induction fuel with
  | zero => intro period k la lb pj x hx; simp [genLoop] at hx
  | succ fuel ih =>
    intro period k la lb pj x hx
    simp only [genLoop] at hx
    rcases List.mem_cons.mp hx with h | h
    · subst h
      exact round2_floor (le_max_right _ _)
    · exact ih _ _ _ _ _ x h

theorem mini_genLoop_rb_length (rng : Rng) (jumps : List ℕ) :
    ∀ (fuel period k : ℕ) (la lb : ℚ) (pj : Bool),
      (genLoop rng jumps period fuel k la lb pj).rb.length = fuel := by
  intro fuel
  induction fuel with
  | zero => intro period k la lb pj; simp [genLoop]
  | succ fuel ih =>
    intro period k la lb pj
    simp only [genLoop, List.length_cons]
    rw [ih]

theorem mini_genLoop_rb_jump (rng : Rng) (jumps : List ℕ) :
    ∀ (fuel i period k : ℕ) (la lb : ℚ) (pj : Bool), i < fuel →
      (period + i) ∈ jumps →
      (genLoop rng jumps period fuel k la lb pj).rb.getD i 0 = 1 / 2 := by
  intro fuel
  induction fuel with
  | zero => intro i period k la lb pj hi; omega
  | succ fuel ih =>
    intro i period k la lb pj hi hmem
    simp only [genLoop]
    match i with
    | 0 =>
      rw [List.getD_cons_zero]
      rw [Nat.add_zero] at hmem
      rw [decide_eq_true hmem]
      exact stepB_jump rng _ lb 10 pj
    | i + 1 =>
      rw [List.getD_cons_succ]
      have hmem2 : (period + 1) + i ∈ jumps := by
        have : period + 1 + i = period + (i + 1) := by omega
        rw [this]; exact hmem
      exact ih i (period + 1) _ _ _ _ (by omega) hmem2

end MiniPilot

namespace MultiAsset

theorem ensure_populated (f : String → Rng) (s : Session) :
    populated (ensure_price_paths f s) = true := by
  unfold ensure_price_paths
  split_ifs with h
  · exact h
  · simp [populated]

end MultiAsset

namespace MiniPilot

theorem mini_ensure_populated (f : String → Rng) (s : Session) :
    populated (ensure_price_paths f s) = true := by
  unfold ensure_price_paths
  split_ifs with h
  · exact h
  · simp [populated]

end MiniPilot

namespace MultiAsset

theorem spec_of_valid (pr : Prices) (port : Portfolio) (od : Orders)
    (h : ValidInputs pr port od) :
    ((execute_trades pr port od).exec_sell_a = min od.sell_a port.qty_a ∧
      (execute_trades pr port od).exec_sell_b = min od.sell_b port.qty_b ∧
      (execute_trades pr port od).exec_sell_c = min od.sell_c port.qty_c ∧
      (execute_trades pr port od).exec_sell_d = min od.sell_d port.qty_d) ∧
    ((execute_trades pr port od).exec_buy_a ≤ od.buy_a ∧
      (execute_trades pr port od).exec_buy_b ≤ od.buy_b ∧
      (execute_trades pr port od).exec_buy_c ≤ od.buy_c ∧
      (execute_trades pr port od).exec_buy_d ≤ od.buy_d) ∧
    (0 ≤ (execute_trades pr port od).exec_buy_a ∧
      0 ≤ (execute_trades pr port od).exec_buy_b ∧
      0 ≤ (execute_trades pr port od).exec_buy_c ∧
      0 ≤ (execute_trades pr port od).exec_buy_d) ∧
    (0 ≤ (execute_trades pr port od).qty_a ∧ 0 ≤ (execute_trades pr port od).qty_b ∧
      0 ≤ (execute_trades pr port od).qty_c ∧ 0 ≤ (execute_trades pr port od).qty_d) ∧
    0 ≤ (execute_trades pr port od).cash ∧
    (((execute_trades pr port od).exec_buy_a : ℚ) * pr.p_a +
        ((execute_trades pr port od).exec_buy_b : ℚ) * pr.p_b +
        ((execute_trades pr port od).exec_buy_c : ℚ) * pr.p_c +
        ((execute_trades pr port od).exec_buy_d : ℚ) * pr.p_d ≤
      port.cash + ((min od.sell_a port.qty_a : ℤ) : ℚ) * pr.p_a +
        ((min od.sell_b port.qty_b : ℤ) : ℚ) * pr.p_b +
        ((min od.sell_c port.qty_c : ℤ) : ℚ) * pr.p_c +
        ((min od.sell_d port.qty_d : ℤ) : ℚ) * pr.p_d) ∧
    ((execute_trades pr port od).wealth_today = (execute_trades pr port od).cash +
      ((execute_trades pr port od).qty_a : ℚ) * pr.p_a +
      ((execute_trades pr port od).qty_b : ℚ) * pr.p_b +
      ((execute_trades pr port od).qty_c : ℚ) * pr.p_c +
      ((execute_trades pr port od).qty_d : ℚ) * pr.p_d) ∧
    ((execute_trades pr port od).cash +
        ((execute_trades pr port od).qty_a : ℚ) * pr.p_a +
        ((execute_trades pr port od).qty_b : ℚ) * pr.p_b +
        ((execute_trades pr port od).qty_c : ℚ) * pr.p_c +
        ((execute_trades pr port od).qty_d : ℚ) * pr.p_d =
      port.cash + (port.qty_a : ℚ) * pr.p_a + (port.qty_b : ℚ) * pr.p_b +
        (port.qty_c : ℚ) * pr.p_c + (port.qty_d : ℚ) * pr.p_d) := by
  obtain ⟨⟨a1, a2, a3, a4⟩, ⟨b1, b2, b3, b4⟩, ⟨c1, c2⟩, ⟨d1, d2, d3, d4⟩,
    ⟨e1, e2, e3, e4⟩, ⟨f1, f2, f3, f4⟩⟩ := h
  exact execute_trades_spec pr port od _ rfl a1 a2 a3 a4 b1 b2 b3 b4 c1 c2
    d1 d2 d3 d4 e1 e2 e3 e4 f1 f2 f3 f4

end MultiAsset

namespace MiniPilot

theorem mini_spec_of_valid (pr : Prices) (port : Portfolio) (od : Orders)
    (h : ValidInputs pr port od) :
    ((execute_trades_and_carry_forward pr port od).exec_sell_a = min od.sell_a port.qty_a ∧
      (execute_trades_and_carry_forward pr port od).exec_sell_b = min od.sell_b port.qty_b) ∧
    ((execute_trades_and_carry_forward pr port od).exec_buy_a ≤ od.buy_a ∧
      (execute_trades_and_carry_forward pr port od).exec_buy_b ≤ od.buy_b) ∧
    (0 ≤ (execute_trades_and_carry_forward pr port od).exec_buy_a ∧
      0 ≤ (execute_trades_and_carry_forward pr port od).exec_buy_b) ∧
    (0 ≤ (execute_trades_and_carry_forward pr port od).qty_a ∧
      0 ≤ (execute_trades_and_carry_forward pr port od).qty_b) ∧
    0 ≤ (execute_trades_and_carry_forward pr port od).cash ∧
    (((execute_trades_and_carry_forward pr port od).exec_buy_a : ℚ) * pr.p_a +
        ((execute_trades_and_carry_forward pr port od).exec_buy_b : ℚ) * pr.p_b ≤
      port.cash + ((min od.sell_a port.qty_a : ℤ) : ℚ) * pr.p_a +
        ((min od.sell_b port.qty_b : ℤ) : ℚ) * pr.p_b) ∧
    ((execute_trades_and_carry_forward pr port od).wealth_now =
      (execute_trades_and_carry_forward pr port od).cash +
      ((execute_trades_and_carry_forward pr port od).qty_a : ℚ) * pr.p_a +
      ((execute_trades_and_carry_forward pr port od).qty_b : ℚ) * pr.p_b) ∧
    ((execute_trades_and_carry_forward pr port od).cash +
        ((execute_trades_and_carry_forward pr port od).qty_a : ℚ) * pr.p_a +
        ((execute_trades_and_carry_forward pr port od).qty_b : ℚ) * pr.p_b =
      port.cash + (port.qty_a : ℚ) * pr.p_a + (port.qty_b : ℚ) * pr.p_b) := by
  obtain ⟨⟨a1, a2⟩, ⟨b1, b2⟩, ⟨c1, c2⟩, ⟨d1, d2⟩, ⟨e1, e2⟩, ⟨f1, f2⟩⟩ := h
  exact execute_spec pr port od _ rfl a1 a2 b1 b2 c1 c2 d1 d2 e1 e2 f1 f2

end MiniPilot

/-- C1: for every player round state with non-negative cash, holdings
and requested quantities (under the generator price contract), after
`execute_trades` (multi-asset app) and
`execute_trades_and_carry_forward` (mini-pilot app) every per-asset
holding is ≥ 0 and cash is ≥ 0. -/
theorem claim_C1
    (prM : MultiAsset.Prices) (portM : MultiAsset.Portfolio) (odM : MultiAsset.Orders)
    (prN : MiniPilot.Prices) (portN : MiniPilot.Portfolio) (odN : MiniPilot.Orders)
    (hM : MultiAsset.ValidInputs prM portM odM)
    (hN : MiniPilot.ValidInputs prN portN odN) :
    (0 ≤ (MultiAsset.execute_trades prM portM odM).qty_a ∧
      0 ≤ (MultiAsset.execute_trades prM portM odM).qty_b ∧
      0 ≤ (MultiAsset.execute_trades prM portM odM).qty_c ∧
      0 ≤ (MultiAsset.execute_trades prM portM odM).qty_d ∧
      0 ≤ (MultiAsset.execute_trades prM portM odM).cash) ∧
    (0 ≤ (MiniPilot.execute_trades_and_carry_forward prN portN odN).qty_a ∧
      0 ≤ (MiniPilot.execute_trades_and_carry_forward prN portN odN).qty_b ∧
      0 ≤ (MiniPilot.execute_trades_and_carry_forward prN portN odN).cash) := by
  obtain ⟨_, _, _, MG4, MG5, _⟩ := MultiAsset.spec_of_valid prM portM odM hM
  obtain ⟨_, _, _, NG4, NG5, _⟩ := MiniPilot.mini_spec_of_valid prN portN odN hN
  exact ⟨⟨MG4.1, MG4.2.1, MG4.2.2.1, MG4.2.2.2, MG5⟩, ⟨NG4.1, NG4.2, NG5⟩⟩

theorem claim_C1_witness :
    (0 ≤ (MultiAsset.execute_trades ⟨10, 10, 10, 10, 10, 10, 10, 10⟩ ⟨100, 0, 0, 0, 0⟩
        ⟨5, 0, 0, 0, 0, 0, 0, 0⟩).qty_a ∧
      0 ≤ (MultiAsset.execute_trades ⟨10, 10, 10, 10, 10, 10, 10, 10⟩ ⟨100, 0, 0, 0, 0⟩
        ⟨5, 0, 0, 0, 0, 0, 0, 0⟩).qty_b ∧
      0 ≤ (MultiAsset.execute_trades ⟨10, 10, 10, 10, 10, 10, 10, 10⟩ ⟨100, 0, 0, 0, 0⟩
        ⟨5, 0, 0, 0, 0, 0, 0, 0⟩).qty_c ∧
      0 ≤ (MultiAsset.execute_trades ⟨10, 10, 10, 10, 10, 10, 10, 10⟩ ⟨100, 0, 0, 0, 0⟩
        ⟨5, 0, 0, 0, 0, 0, 0, 0⟩).qty_d ∧
      0 ≤ (MultiAsset.execute_trades ⟨10, 10, 10, 10, 10, 10, 10, 10⟩ ⟨100, 0, 0, 0, 0⟩
        ⟨5, 0, 0, 0, 0, 0, 0, 0⟩).cash) ∧
    (0 ≤ (MiniPilot.execute_trades_and_carry_forward ⟨10, 10, 10, 10⟩ ⟨100, 0, 0⟩
        ⟨5, 0, 0, 0⟩).qty_a ∧
      0 ≤ (MiniPilot.execute_trades_and_carry_forward ⟨10, 10, 10, 10⟩ ⟨100, 0, 0⟩
        ⟨5, 0, 0, 0⟩).qty_b ∧
      0 ≤ (MiniPilot.execute_trades_and_carry_forward ⟨10, 10, 10, 10⟩ ⟨100, 0, 0⟩
        ⟨5, 0, 0, 0⟩).cash) :=
  claim_C1 ⟨10, 10, 10, 10, 10, 10, 10, 10⟩ ⟨100, 0, 0, 0, 0⟩ ⟨5, 0, 0, 0, 0, 0, 0, 0⟩
    ⟨10, 10, 10, 10⟩ ⟨100, 0, 0⟩ ⟨5, 0, 0, 0⟩
    (by norm_num [MultiAsset.ValidInputs, BehaviouralLab.Cent])
    (by norm_num [MiniPilot.ValidInputs, BehaviouralLab.Cent])

/-- C3: for every execution with non-negative inputs, in both apps:
executed sells equal `min(requested_sell, holdings)`; executed buys
never exceed the requests; and the total cost of executed buys at
current prices never exceeds the cash available right after the sell
phase (opening cash plus sell proceeds). -/
theorem claim_C3
    (prM : MultiAsset.Prices) (portM : MultiAsset.Portfolio) (odM : MultiAsset.Orders)
    (prN : MiniPilot.Prices) (portN : MiniPilot.Portfolio) (odN : MiniPilot.Orders)
    (hM : MultiAsset.ValidInputs prM portM odM)
    (hN : MiniPilot.ValidInputs prN portN odN) :
    (((MultiAsset.execute_trades prM portM odM).exec_sell_a = min odM.sell_a portM.qty_a ∧
      (MultiAsset.execute_trades prM portM odM).exec_sell_b = min odM.sell_b portM.qty_b ∧
      (MultiAsset.execute_trades prM portM odM).exec_sell_c = min odM.sell_c portM.qty_c ∧
      (MultiAsset.execute_trades prM portM odM).exec_sell_d = min odM.sell_d portM.qty_d) ∧
     ((MultiAsset.execute_trades prM portM odM).exec_buy_a ≤ odM.buy_a ∧
      (MultiAsset.execute_trades prM portM odM).exec_buy_b ≤ odM.buy_b ∧
      (MultiAsset.execute_trades prM portM odM).exec_buy_c ≤ odM.buy_c ∧
      (MultiAsset.execute_trades prM portM odM).exec_buy_d ≤ odM.buy_d) ∧
     (((MultiAsset.execute_trades prM portM odM).exec_buy_a : ℚ) * prM.p_a +
        ((MultiAsset.execute_trades prM portM odM).exec_buy_b : ℚ) * prM.p_b +
        ((MultiAsset.execute_trades prM portM odM).exec_buy_c : ℚ) * prM.p_c +
        ((MultiAsset.execute_trades prM portM odM).exec_buy_d : ℚ) * prM.p_d ≤
      portM.cash + ((min odM.sell_a portM.qty_a : ℤ) : ℚ) * prM.p_a +
        ((min odM.sell_b portM.qty_b : ℤ) : ℚ) * prM.p_b +
        ((min odM.sell_c portM.qty_c : ℤ) : ℚ) * prM.p_c +
        ((min odM.sell_d portM.qty_d : ℤ) : ℚ) * prM.p_d)) ∧
    (((MiniPilot.execute_trades_and_carry_forward prN portN odN).exec_sell_a =
        min odN.sell_a portN.qty_a ∧
      (MiniPilot.execute_trades_and_carry_forward prN portN odN).exec_sell_b =
        min odN.sell_b portN.qty_b) ∧
     ((MiniPilot.execute_trades_and_carry_forward prN portN odN).exec_buy_a ≤ odN.buy_a ∧
      (MiniPilot.execute_trades_and_carry_forward prN portN odN).exec_buy_b ≤ odN.buy_b) ∧
     (((MiniPilot.execute_trades_and_carry_forward prN portN odN).exec_buy_a : ℚ) * prN.p_a +
        ((MiniPilot.execute_trades_and_carry_forward prN portN odN).exec_buy_b : ℚ) * prN.p_b ≤
      portN.cash + ((min odN.sell_a portN.qty_a : ℤ) : ℚ) * prN.p_a +
        ((min odN.sell_b portN.qty_b : ℤ) : ℚ) * prN.p_b)) := by
  obtain ⟨MG1, MG2, _, _, _, MG6, _⟩ := MultiAsset.spec_of_valid prM portM odM hM
  obtain ⟨NG1, NG2, _, _, _, NG6, _⟩ := MiniPilot.mini_spec_of_valid prN portN odN hN
  exact ⟨⟨MG1, MG2, MG6⟩, ⟨NG1, NG2, NG6⟩⟩

theorem claim_C3_witness :
    (((MultiAsset.execute_trades ⟨10, 10, 10, 10, 10, 10, 10, 10⟩ ⟨100, 3, 0, 0, 0⟩
        ⟨0, 10, 0, 0, 0, 0, 0, 0⟩).exec_sell_a = min 10 3 ∧
      (MultiAsset.execute_trades ⟨10, 10, 10, 10, 10, 10, 10, 10⟩ ⟨100, 3, 0, 0, 0⟩
        ⟨0, 10, 0, 0, 0, 0, 0, 0⟩).exec_sell_b = min 0 0 ∧
      (MultiAsset.execute_trades ⟨10, 10, 10, 10, 10, 10, 10, 10⟩ ⟨100, 3, 0, 0, 0⟩
        ⟨0, 10, 0, 0, 0, 0, 0, 0⟩).exec_sell_c = min 0 0 ∧
      (MultiAsset.execute_trades ⟨10, 10, 10, 10, 10, 10, 10, 10⟩ ⟨100, 3, 0, 0, 0⟩
        ⟨0, 10, 0, 0, 0, 0, 0, 0⟩).exec_sell_d = min 0 0) ∧
     ((MultiAsset.execute_trades ⟨10, 10, 10, 10, 10, 10, 10, 10⟩ ⟨100, 3, 0, 0, 0⟩
        ⟨0, 10, 0, 0, 0, 0, 0, 0⟩).exec_buy_a ≤ 0 ∧
      (MultiAsset.execute_trades ⟨10, 10, 10, 10, 10, 10, 10, 10⟩ ⟨100, 3, 0, 0, 0⟩
        ⟨0, 10, 0, 0, 0, 0, 0, 0⟩).exec_buy_b ≤ 0 ∧
      (MultiAsset.execute_trades ⟨10, 10, 10, 10, 10, 10, 10, 10⟩ ⟨100, 3, 0, 0, 0⟩
        ⟨0, 10, 0, 0, 0, 0, 0, 0⟩).exec_buy_c ≤ 0 ∧
      (MultiAsset.execute_trades ⟨10, 10, 10, 10, 10, 10, 10, 10⟩ ⟨100, 3, 0, 0, 0⟩
        ⟨0, 10, 0, 0, 0, 0, 0, 0⟩).exec_buy_d ≤ 0) ∧
     (((MultiAsset.execute_trades ⟨10, 10, 10, 10, 10, 10, 10, 10⟩ ⟨100, 3, 0, 0, 0⟩
        ⟨0, 10, 0, 0, 0, 0, 0, 0⟩).exec_buy_a : ℚ) * 10 +
        ((MultiAsset.execute_trades ⟨10, 10, 10, 10, 10, 10, 10, 10⟩ ⟨100, 3, 0, 0, 0⟩
        ⟨0, 10, 0, 0, 0, 0, 0, 0⟩).exec_buy_b : ℚ) * 10 +
        ((MultiAsset.execute_trades ⟨10, 10, 10, 10, 10, 10, 10, 10⟩ ⟨100, 3, 0, 0, 0⟩
        ⟨0, 10, 0, 0, 0, 0, 0, 0⟩).exec_buy_c : ℚ) * 10 +
        ((MultiAsset.execute_trades ⟨10, 10, 10, 10, 10, 10, 10, 10⟩ ⟨100, 3, 0, 0, 0⟩
        ⟨0, 10, 0, 0, 0, 0, 0, 0⟩).exec_buy_d : ℚ) * 10 ≤
      100 + ((min 10 3 : ℤ) : ℚ) * 10 + ((min 0 0 : ℤ) : ℚ) * 10 +
        ((min 0 0 : ℤ) : ℚ) * 10 + ((min 0 0 : ℤ) : ℚ) * 10)) ∧
    (((MiniPilot.execute_trades_and_carry_forward ⟨10, 10, 10, 10⟩ ⟨100, 3, 0⟩
        ⟨0, 10, 0, 0⟩).exec_sell_a = min 10 3 ∧
      (MiniPilot.execute_trades_and_carry_forward ⟨10, 10, 10, 10⟩ ⟨100, 3, 0⟩
        ⟨0, 10, 0, 0⟩).exec_sell_b = min 0 0) ∧
     ((MiniPilot.execute_trades_and_carry_forward ⟨10, 10, 10, 10⟩ ⟨100, 3, 0⟩
        ⟨0, 10, 0, 0⟩).exec_buy_a ≤ 0 ∧
      (MiniPilot.execute_trades_and_carry_forward ⟨10, 10, 10, 10⟩ ⟨100, 3, 0⟩
        ⟨0, 10, 0, 0⟩).exec_buy_b ≤ 0) ∧
     (((MiniPilot.execute_trades_and_carry_forward ⟨10, 10, 10, 10⟩ ⟨100, 3, 0⟩
        ⟨0, 10, 0, 0⟩).exec_buy_a : ℚ) * 10 +
        ((MiniPilot.execute_trades_and_carry_forward ⟨10, 10, 10, 10⟩ ⟨100, 3, 0⟩
        ⟨0, 10, 0, 0⟩).exec_buy_b : ℚ) * 10 ≤
      100 + ((min 10 3 : ℤ) : ℚ) * 10 + ((min 0 0 : ℤ) : ℚ) * 10)) :=
  claim_C3 ⟨10, 10, 10, 10, 10, 10, 10, 10⟩ ⟨100, 3, 0, 0, 0⟩ ⟨0, 10, 0, 0, 0, 0, 0, 0⟩
    ⟨10, 10, 10, 10⟩ ⟨100, 3, 0⟩ ⟨0, 10, 0, 0⟩
    (by norm_num [MultiAsset.ValidInputs, BehaviouralLab.Cent])
    (by norm_num [MiniPilot.ValidInputs, BehaviouralLab.Cent])

/-- C4: after every execution, the stored `wealth_today`
(`wealth_now` in the mini-pilot app) equals exactly the post-trade cash
plus the sum over assets of post-trade holdings times the
current-round price of that asset. -/
theorem claim_C4
    (prM : MultiAsset.Prices) (portM : MultiAsset.Portfolio) (odM : MultiAsset.Orders)
    (prN : MiniPilot.Prices) (portN : MiniPilot.Portfolio) (odN : MiniPilot.Orders)
    (hM : MultiAsset.ValidInputs prM portM odM)
    (hN : MiniPilot.ValidInputs prN portN odN) :
    ((MultiAsset.execute_trades prM portM odM).wealth_today =
      (MultiAsset.execute_trades prM portM odM).cash +
      ((MultiAsset.execute_trades prM portM odM).qty_a : ℚ) * prM.p_a +
      ((MultiAsset.execute_trades prM portM odM).qty_b : ℚ) * prM.p_b +
      ((MultiAsset.execute_trades prM portM odM).qty_c : ℚ) * prM.p_c +
      ((MultiAsset.execute_trades prM portM odM).qty_d : ℚ) * prM.p_d) ∧
    ((MiniPilot.execute_trades_and_carry_forward prN portN odN).wealth_now =
      (MiniPilot.execute_trades_and_carry_forward prN portN odN).cash +
      ((MiniPilot.execute_trades_and_carry_forward prN portN odN).qty_a : ℚ) * prN.p_a +
      ((MiniPilot.execute_trades_and_carry_forward prN portN odN).qty_b : ℚ) * prN.p_b) := by
  obtain ⟨_, _, _, _, _, _, MG7, _⟩ := MultiAsset.spec_of_valid prM portM odM hM
  obtain ⟨_, _, _, _, _, _, NG7, _⟩ := MiniPilot.mini_spec_of_valid prN portN odN hN
  exact ⟨MG7, NG7⟩

theorem claim_C4_witness :
    ((MultiAsset.execute_trades ⟨10, 10, 10, 10, 10, 10, 10, 10⟩ ⟨100, 0, 0, 0, 0⟩
        ⟨5, 0, 0, 0, 0, 0, 0, 0⟩).wealth_today =
      (MultiAsset.execute_trades ⟨10, 10, 10, 10, 10, 10, 10, 10⟩ ⟨100, 0, 0, 0, 0⟩
        ⟨5, 0, 0, 0, 0, 0, 0, 0⟩).cash +
      ((MultiAsset.execute_trades ⟨10, 10, 10, 10, 10, 10, 10, 10⟩ ⟨100, 0, 0, 0, 0⟩
        ⟨5, 0, 0, 0, 0, 0, 0, 0⟩).qty_a : ℚ) * 10 +
      ((MultiAsset.execute_trades ⟨10, 10, 10, 10, 10, 10, 10, 10⟩ ⟨100, 0, 0, 0, 0⟩
        ⟨5, 0, 0, 0, 0, 0, 0, 0⟩).qty_b : ℚ) * 10 +
      ((MultiAsset.execute_trades ⟨10, 10, 10, 10, 10, 10, 10, 10⟩ ⟨100, 0, 0, 0, 0⟩
        ⟨5, 0, 0, 0, 0, 0, 0, 0⟩).qty_c : ℚ) * 10 +
      ((MultiAsset.execute_trades ⟨10, 10, 10, 10, 10, 10, 10, 10⟩ ⟨100, 0, 0, 0, 0⟩
        ⟨5, 0, 0, 0, 0, 0, 0, 0⟩).qty_d : ℚ) * 10) ∧
    ((MiniPilot.execute_trades_and_carry_forward ⟨10, 10, 10, 10⟩ ⟨100, 0, 0⟩
        ⟨5, 0, 0, 0⟩).wealth_now =
      (MiniPilot.execute_trades_and_carry_forward ⟨10, 10, 10, 10⟩ ⟨100, 0, 0⟩
        ⟨5, 0, 0, 0⟩).cash +
      ((MiniPilot.execute_trades_and_carry_forward ⟨10, 10, 10, 10⟩ ⟨100, 0, 0⟩
        ⟨5, 0, 0, 0⟩).qty_a : ℚ) * 10 +
      ((MiniPilot.execute_trades_and_carry_forward ⟨10, 10, 10, 10⟩ ⟨100, 0, 0⟩
        ⟨5, 0, 0, 0⟩).qty_b : ℚ) * 10) :=
  claim_C4 ⟨10, 10, 10, 10, 10, 10, 10, 10⟩ ⟨100, 0, 0, 0, 0⟩ ⟨5, 0, 0, 0, 0, 0, 0, 0⟩
    ⟨10, 10, 10, 10⟩ ⟨100, 0, 0⟩ ⟨5, 0, 0, 0⟩
    (by norm_num [MultiAsset.ValidInputs, BehaviouralLab.Cent])
    (by norm_num [MiniPilot.ValidInputs, BehaviouralLab.Cent])

/-- C9: trade execution conserves mark-to-market wealth at current
prices: post-trade cash plus post-trade holdings valued at the
current-round prices equals pre-trade cash plus pre-trade holdings
valued at the same prices, exactly, in both apps. -/
theorem claim_C9
    (prM : MultiAsset.Prices) (portM : MultiAsset.Portfolio) (odM : MultiAsset.Orders)
    (prN : MiniPilot.Prices) (portN : MiniPilot.Portfolio) (odN : MiniPilot.Orders)
    (hM : MultiAsset.ValidInputs prM portM odM)
    (hN : MiniPilot.ValidInputs prN portN odN) :
    ((MultiAsset.execute_trades prM portM odM).cash +
        ((MultiAsset.execute_trades prM portM odM).qty_a : ℚ) * prM.p_a +
        ((MultiAsset.execute_trades prM portM odM).qty_b : ℚ) * prM.p_b +
        ((MultiAsset.execute_trades prM portM odM).qty_c : ℚ) * prM.p_c +
        ((MultiAsset.execute_trades prM portM odM).qty_d : ℚ) * prM.p_d =
      portM.cash + (portM.qty_a : ℚ) * prM.p_a + (portM.qty_b : ℚ) * prM.p_b +
        (portM.qty_c : ℚ) * prM.p_c + (portM.qty_d : ℚ) * prM.p_d) ∧
    ((MiniPilot.execute_trades_and_carry_forward prN portN odN).cash +
        ((MiniPilot.execute_trades_and_carry_forward prN portN odN).qty_a : ℚ) * prN.p_a +
        ((MiniPilot.execute_trades_and_carry_forward prN portN odN).qty_b : ℚ) * prN.p_b =
      portN.cash + (portN.qty_a : ℚ) * prN.p_a + (portN.qty_b : ℚ) * prN.p_b) := by
  obtain ⟨_, _, _, _, _, _, _, MG8⟩ := MultiAsset.spec_of_valid prM portM odM hM
  obtain ⟨_, _, _, _, _, _, _, NG8⟩ := MiniPilot.mini_spec_of_valid prN portN odN hN
  exact ⟨MG8, NG8⟩

theorem claim_C9_witness :
    ((MultiAsset.execute_trades ⟨10, 10, 10, 10, 10, 10, 10, 10⟩ ⟨100, 2, 0, 0, 0⟩
        ⟨5, 1, 0, 0, 0, 0, 0, 0⟩).cash +
        ((MultiAsset.execute_trades ⟨10, 10, 10, 10, 10, 10, 10, 10⟩ ⟨100, 2, 0, 0, 0⟩
        ⟨5, 1, 0, 0, 0, 0, 0, 0⟩).qty_a : ℚ) * 10 +
        ((MultiAsset.execute_trades ⟨10, 10, 10, 10, 10, 10, 10, 10⟩ ⟨100, 2, 0, 0, 0⟩
        ⟨5, 1, 0, 0, 0, 0, 0, 0⟩).qty_b : ℚ) * 10 +
        ((MultiAsset.execute_trades ⟨10, 10, 10, 10, 10, 10, 10, 10⟩ ⟨100, 2, 0, 0, 0⟩
        ⟨5, 1, 0, 0, 0, 0, 0, 0⟩).qty_c : ℚ) * 10 +
        ((MultiAsset.execute_trades ⟨10, 10, 10, 10, 10, 10, 10, 10⟩ ⟨100, 2, 0, 0, 0⟩
        ⟨5, 1, 0, 0, 0, 0, 0, 0⟩).qty_d : ℚ) * 10 =
      100 + ((2 : ℤ) : ℚ) * 10 + ((0 : ℤ) : ℚ) * 10 + ((0 : ℤ) : ℚ) * 10 +
        ((0 : ℤ) : ℚ) * 10) ∧
    ((MiniPilot.execute_trades_and_carry_forward ⟨10, 10, 10, 10⟩ ⟨100, 2, 0⟩
        ⟨5, 1, 0, 0⟩).cash +
        ((MiniPilot.execute_trades_and_carry_forward ⟨10, 10, 10, 10⟩ ⟨100, 2, 0⟩
        ⟨5, 1, 0, 0⟩).qty_a : ℚ) * 10 +
        ((MiniPilot.execute_trades_and_carry_forward ⟨10, 10, 10, 10⟩ ⟨100, 2, 0⟩
        ⟨5, 1, 0, 0⟩).qty_b : ℚ) * 10 =
      100 + ((2 : ℤ) : ℚ) * 10 + ((0 : ℤ) : ℚ) * 10) :=
  claim_C9 ⟨10, 10, 10, 10, 10, 10, 10, 10⟩ ⟨100, 2, 0, 0, 0⟩ ⟨5, 1, 0, 0, 0, 0, 0, 0⟩
    ⟨10, 10, 10, 10⟩ ⟨100, 2, 0⟩ ⟨5, 1, 0, 0⟩
    (by norm_num [MultiAsset.ValidInputs, BehaviouralLab.Cent])
    (by norm_num [MiniPilot.ValidInputs, BehaviouralLab.Cent])

namespace MultiAsset

theorem ensure_of_populated (f : String → Rng) (s : Session)
    (h : populated s = true) : ensure_price_paths f s = s := by
  unfold ensure_price_paths
  rw [if_pos h]

theorem populated_false_of_empty (s : Session) (h : s.prices_a = none) :
    populated s = false := by
  unfold populated
  rw [h]
  simp

theorem ensure_fields_of_unpopulated (f : String → Rng) (s : Session)
    (h : populated s = false) :
    (ensure_price_paths f s).prices_a = some (gen_price_paths (f s.code)).prices_a ∧
    (ensure_price_paths f s).prices_b = some (gen_price_paths (f s.code)).prices_b ∧
    (ensure_price_paths f s).prices_c = some (gen_price_paths (f s.code)).prices_c ∧
    (ensure_price_paths f s).prices_d = some (gen_price_paths (f s.code)).prices_d ∧
    (ensure_price_paths f s).returns_b = some (gen_price_paths (f s.code)).returns_b ∧
    (ensure_price_paths f s).jump_periods_b =
      some (gen_price_paths (f s.code)).jump_periods_b := by
  have hn : ¬ (populated s = true) := by rw [h]; simp
  unfold ensure_price_paths
  rw [if_neg hn]
  exact ⟨rfl, rfl, rfl, rfl, rfl, rfl⟩

end MultiAsset

namespace MiniPilot

theorem mini_ensure_of_populated (f : String → Rng) (s : Session)
    (h : populated s = true) : ensure_price_paths f s = s := by
  unfold ensure_price_paths
  rw [if_pos h]

theorem mini_populated_false_of_empty (s : Session) (h : s.prices_a = none) :
    populated s = false := by
  unfold populated
  rw [h]
  simp

theorem mini_ensure_fields_of_unpopulated (f : String → Rng) (s : Session)
    (h : populated s = false) :
    (ensure_price_paths f s).prices_a = some (gen_price_paths (f s.code)).prices_a ∧
    (ensure_price_paths f s).prices_b = some (gen_price_paths (f s.code)).prices_b ∧
    (ensure_price_paths f s).returns_b = some (gen_price_paths (f s.code)).returns_b ∧
    (ensure_price_paths f s).jump_periods_b =
      some (gen_price_paths (f s.code)).jump_periods_b := by
  have hn : ¬ (populated s = true) := by rw [h]; simp
  unfold ensure_price_paths
  rw [if_neg hn]
  exact ⟨rfl, rfl, rfl, rfl⟩

end MiniPilot

/-- C5: calling `ensure_price_paths` on a session whose price-path
state is already populated is a no-op, and the second and every later
invocation (with any seed-to-stream map) leaves the session unchanged —
in both apps. -/
theorem claim_C5 (f g : String → Rng)
    (sM : MultiAsset.Session) (sM2 : MultiAsset.Session)
    (sN : MiniPilot.Session) (sN2 : MiniPilot.Session)
    (hM : MultiAsset.populated sM = true) (hN : MiniPilot.populated sN = true) :
    (MultiAsset.ensure_price_paths f sM = sM ∧
      MultiAsset.ensure_price_paths g (MultiAsset.ensure_price_paths f sM2) =
        MultiAsset.ensure_price_paths f sM2) ∧
    (MiniPilot.ensure_price_paths f sN = sN ∧
      MiniPilot.ensure_price_paths g (MiniPilot.ensure_price_paths f sN2) =
        MiniPilot.ensure_price_paths f sN2) :=
  ⟨⟨MultiAsset.ensure_of_populated f sM hM,
    MultiAsset.ensure_of_populated g _ (MultiAsset.ensure_populated f sM2)⟩,
   ⟨MiniPilot.mini_ensure_of_populated f sN hN,
    MiniPilot.mini_ensure_of_populated g _ (MiniPilot.mini_ensure_populated f sN2)⟩⟩

/-- C6: price-path generation is deterministic in the session
identifier: running `ensure_price_paths` on two initially empty
sessions with the same code produces identical price sequences,
identical trap-asset return sequences and identical jump-period sets —
in both apps. -/
theorem claim_C6 (f : String → Rng)
    (sM1 sM2 : MultiAsset.Session) (sN1 sN2 : MiniPilot.Session)
    (hcodeM : sM1.code = sM2.code) (hcodeN : sN1.code = sN2.code)
    (hM1 : MultiAsset.populated sM1 = false) (hM2 : MultiAsset.populated sM2 = false)
    (hN1 : MiniPilot.populated sN1 = false) (hN2 : MiniPilot.populated sN2 = false) :
    ((MultiAsset.ensure_price_paths f sM1).prices_a =
        (MultiAsset.ensure_price_paths f sM2).prices_a ∧
      (MultiAsset.ensure_price_paths f sM1).prices_b =
        (MultiAsset.ensure_price_paths f sM2).prices_b ∧
      (MultiAsset.ensure_price_paths f sM1).prices_c =
        (MultiAsset.ensure_price_paths f sM2).prices_c ∧
      (MultiAsset.ensure_price_paths f sM1).prices_d =
        (MultiAsset.ensure_price_paths f sM2).prices_d ∧
      (MultiAsset.ensure_price_paths f sM1).returns_b =
        (MultiAsset.ensure_price_paths f sM2).returns_b ∧
      (MultiAsset.ensure_price_paths f sM1).jump_periods_b =
        (MultiAsset.ensure_price_paths f sM2).jump_periods_b) ∧
    ((MiniPilot.ensure_price_paths f sN1).prices_a =
        (MiniPilot.ensure_price_paths f sN2).prices_a ∧
      (MiniPilot.ensure_price_paths f sN1).prices_b =
        (MiniPilot.ensure_price_paths f sN2).prices_b ∧
      (MiniPilot.ensure_price_paths f sN1).returns_b =
        (MiniPilot.ensure_price_paths f sN2).returns_b ∧
      (MiniPilot.ensure_price_paths f sN1).jump_periods_b =
        (MiniPilot.ensure_price_paths f sN2).jump_periods_b) := by
  obtain ⟨m11, m12, m13, m14, m15, m16⟩ := MultiAsset.ensure_fields_of_unpopulated f sM1 hM1
  obtain ⟨m21, m22, m23, m24, m25, m26⟩ := MultiAsset.ensure_fields_of_unpopulated f sM2 hM2
  obtain ⟨n11, n12, n13, n14⟩ := MiniPilot.mini_ensure_fields_of_unpopulated f sN1 hN1
  obtain ⟨n21, n22, n23, n24⟩ := MiniPilot.mini_ensure_fields_of_unpopulated f sN2 hN2
  rw [m11, m12, m13, m14, m15, m16, m21, m22, m23, m24, m25, m26,
    n11, n12, n13, n14, n21, n22, n23, n24, hcodeM, hcodeN]
  exact ⟨⟨rfl, rfl, rfl, rfl, rfl, rfl⟩, ⟨rfl, rfl, rfl, rfl⟩⟩

theorem claim_C5_witness :
    (MultiAsset.ensure_price_paths witnessSeed sessionM_populated = sessionM_populated ∧
      MultiAsset.ensure_price_paths witnessSeed
          (MultiAsset.ensure_price_paths witnessSeed sessionM_empty) =
        MultiAsset.ensure_price_paths witnessSeed sessionM_empty) ∧
    (MiniPilot.ensure_price_paths witnessSeed sessionN_populated = sessionN_populated ∧
      MiniPilot.ensure_price_paths witnessSeed
          (MiniPilot.ensure_price_paths witnessSeed sessionN_empty) =
        MiniPilot.ensure_price_paths witnessSeed sessionN_empty) :=
  claim_C5 witnessSeed witnessSeed sessionM_populated sessionM_empty
    sessionN_populated sessionN_empty rfl rfl

theorem claim_C6_witness :
    ((MultiAsset.ensure_price_paths witnessSeed sessionM_empty).prices_a =
        (MultiAsset.ensure_price_paths witnessSeed sessionM_empty).prices_a ∧
      (MultiAsset.ensure_price_paths witnessSeed sessionM_empty).prices_b =
        (MultiAsset.ensure_price_paths witnessSeed sessionM_empty).prices_b ∧
      (MultiAsset.ensure_price_paths witnessSeed sessionM_empty).prices_c =
        (MultiAsset.ensure_price_paths witnessSeed sessionM_empty).prices_c ∧
      (MultiAsset.ensure_price_paths witnessSeed sessionM_empty).prices_d =
        (MultiAsset.ensure_price_paths witnessSeed sessionM_empty).prices_d ∧
      (MultiAsset.ensure_price_paths witnessSeed sessionM_empty).returns_b =
        (MultiAsset.ensure_price_paths witnessSeed sessionM_empty).returns_b ∧
      (MultiAsset.ensure_price_paths witnessSeed sessionM_empty).jump_periods_b =
        (MultiAsset.ensure_price_paths witnessSeed sessionM_empty).jump_periods_b) ∧
    ((MiniPilot.ensure_price_paths witnessSeed sessionN_empty).prices_a =
        (MiniPilot.ensure_price_paths witnessSeed sessionN_empty).prices_a ∧
      (MiniPilot.ensure_price_paths witnessSeed sessionN_empty).prices_b =
        (MiniPilot.ensure_price_paths witnessSeed sessionN_empty).prices_b ∧
      (MiniPilot.ensure_price_paths witnessSeed sessionN_empty).returns_b =
        (MiniPilot.ensure_price_paths witnessSeed sessionN_empty).returns_b ∧
      (MiniPilot.ensure_price_paths witnessSeed sessionN_empty).jump_periods_b =
        (MiniPilot.ensure_price_paths witnessSeed sessionN_empty).jump_periods_b) :=
  claim_C6 witnessSeed sessionM_empty sessionM_empty sessionN_empty sessionN_empty
    rfl rfl rfl rfl rfl rfl

/-- C7: for every stream, the urgency schedule produced by
`ensure_urgency_rounds` has at least 2 (distinct) rounds, never
contains round 1, and is a subset of the candidate rounds
`2..NUM_ROUNDS`. -/
theorem claim_C7 (rng : Rng) :
    2 ≤ (MiniPilot.gen_urgency_rounds rng).length ∧
    (MiniPilot.gen_urgency_rounds rng).Nodup ∧
    1 ∉ MiniPilot.gen_urgency_rounds rng ∧
    (∀ t ∈ MiniPilot.gen_urgency_rounds rng, 2 ≤ t ∧ t ≤ MiniPilot.NUM_ROUNDS) := by
  have hspec := top_up_min2_spec rng.u (MiniPilot.NUM_ROUNDS - 1)
    (List.range' 2 (MiniPilot.NUM_ROUNDS - 1))
    ((List.range' 2 (MiniPilot.NUM_ROUNDS - 1)).filter
      (fun r => decide (rng.u (r - 2) < 1 / 10)))
    (List.nodup_range' 2 (MiniPilot.NUM_ROUNDS - 1))
    ((List.nodup_range' 2 (MiniPilot.NUM_ROUNDS - 1)).filter _)
    (List.filter_subset' _)
    (by norm_num [MiniPilot.NUM_ROUNDS, List.length_range'])
  obtain ⟨hnd, hsorted, hlen, hsub⟩ := hspec
  dsimp only [MiniPilot.gen_urgency_rounds]
  refine ⟨hlen, hnd, ?_, ?_⟩
  · intro hmem
    have := (List.mem_range'_1.mp (hsub hmem)).1
    omega
  · intro t ht
    have := List.mem_range'_1.mp (hsub ht)
    exact ⟨this.1, by omega⟩

namespace MultiAsset

theorem gen_jump_spec (rng : Rng) :
    2 ≤ (gen_price_paths rng).jump_periods_b.length ∧
    (gen_price_paths rng).jump_periods_b.Nodup ∧
    (gen_price_paths rng).jump_periods_b.Sorted (· ≤ ·) ∧
    (∀ t ∈ (gen_price_paths rng).jump_periods_b, 1 ≤ t ∧ t ≤ NUM_ROUNDS) ∧
    (gen_price_paths rng).returns_b.length = NUM_ROUNDS ∧
    (∀ t ∈ (gen_price_paths rng).jump_periods_b,
      (gen_price_paths rng).returns_b.getD (t - 1) 0 = 1 / 2) := by
  have hspec := top_up_min2_spec rng.u (0 + NUM_ROUNDS) (List.range' 1 NUM_ROUNDS)
    ((List.range' 1 NUM_ROUNDS).filter (fun t => decide (rng.u (0 + (t - 1)) < 1 / 10)))
    (List.nodup_range' 1 NUM_ROUNDS)
    ((List.nodup_range' 1 NUM_ROUNDS).filter _)
    (List.filter_subset' _)
    (by norm_num [NUM_ROUNDS, List.length_range'])
  dsimp only [gen_price_paths, select_jump_periods]
  obtain ⟨hnd, hsorted, hlen, hsub⟩ := hspec
  refine ⟨hlen, hnd, hsorted, ?_, genLoop_rb_length rng _ NUM_ROUNDS 1 _ 10 10 10 10 false, ?_⟩
  · intro t ht
    have := List.mem_range'_1.mp (hsub ht)
    exact ⟨this.1, by omega⟩
  · intro t ht
    have hb := List.mem_range'_1.mp (hsub ht)
    have he : 1 + (t - 1) = t := by omega
    exact genLoop_rb_jump rng _ NUM_ROUNDS (t - 1) 1 _ 10 10 10 10 false
      (by omega) (by rw [he]; exact ht)

end MultiAsset

namespace MiniPilot

theorem mini_gen_jump_spec (rng : Rng) :
    2 ≤ (gen_price_paths rng).jump_periods_b.length ∧
    (gen_price_paths rng).jump_periods_b.Nodup ∧
    (gen_price_paths rng).jump_periods_b.Sorted (· ≤ ·) ∧
    (∀ t ∈ (gen_price_paths rng).jump_periods_b, 1 ≤ t ∧ t ≤ NUM_ROUNDS) ∧
    (gen_price_paths rng).returns_b.length = NUM_ROUNDS ∧
    (∀ t ∈ (gen_price_paths rng).jump_periods_b,
      (gen_price_paths rng).returns_b.getD (t - 1) 0 = 1 / 2) := by
  have hspec := top_up_min2_spec rng.u (0 + NUM_ROUNDS) (List.range' 1 NUM_ROUNDS)
    ((List.range' 1 NUM_ROUNDS).filter (fun t => decide (rng.u (0 + (t - 1)) < 1 / 10)))
    (List.nodup_range' 1 NUM_ROUNDS)
    ((List.nodup_range' 1 NUM_ROUNDS).filter _)
    (List.filter_subset' _)
    (by norm_num [NUM_ROUNDS, List.length_range'])
  dsimp only [gen_price_paths, select_jump_periods]
  obtain ⟨hnd, hsorted, hlen, hsub⟩ := hspec
  refine ⟨hlen, hnd, hsorted, ?_, mini_genLoop_rb_length rng _ NUM_ROUNDS 1 _ 10 10 false, ?_⟩
  · intro t ht
    have := List.mem_range'_1.mp (hsub ht)
    exact ⟨this.1, by omega⟩
  · intro t ht
    have hb := List.mem_range'_1.mp (hsub ht)
    have he : 1 + (t - 1) = t := by omega
    exact mini_genLoop_rb_jump rng _ NUM_ROUNDS (t - 1) 1 _ 10 10 false
      (by omega) (by rw [he]; exact ht)

end MiniPilot

/-- C8: for every stream, in both apps, the jump-period set of the
trap asset built by `ensure_price_paths` contains at least `MIN_B_JUMPS = 2`
distinct rounds from `1..NUM_ROUNDS`, is stored sorted ascending, and
the realized trap-asset return at every jump period is exactly
`+0.50`. -/
theorem claim_C8 (rng : Rng) :
    (2 ≤ (MultiAsset.gen_price_paths rng).jump_periods_b.length ∧
      (MultiAsset.gen_price_paths rng).jump_periods_b.Nodup ∧
      (MultiAsset.gen_price_paths rng).jump_periods_b.Sorted (· ≤ ·) ∧
      (∀ t ∈ (MultiAsset.gen_price_paths rng).jump_periods_b,
        1 ≤ t ∧ t ≤ MultiAsset.NUM_ROUNDS) ∧
      (MultiAsset.gen_price_paths rng).returns_b.length = MultiAsset.NUM_ROUNDS ∧
      (∀ t ∈ (MultiAsset.gen_price_paths rng).jump_periods_b,
        (MultiAsset.gen_price_paths rng).returns_b.getD (t - 1) 0 = 1 / 2)) ∧
    (2 ≤ (MiniPilot.gen_price_paths rng).jump_periods_b.length ∧
      (MiniPilot.gen_price_paths rng).jump_periods_b.Nodup ∧
      (MiniPilot.gen_price_paths rng).jump_periods_b.Sorted (· ≤ ·) ∧
      (∀ t ∈ (MiniPilot.gen_price_paths rng).jump_periods_b,
        1 ≤ t ∧ t ≤ MiniPilot.NUM_ROUNDS) ∧
      (MiniPilot.gen_price_paths rng).returns_b.length = MiniPilot.NUM_ROUNDS ∧
      (∀ t ∈ (MiniPilot.gen_price_paths rng).jump_periods_b,
        (MiniPilot.gen_price_paths rng).returns_b.getD (t - 1) 0 = 1 / 2)) :=
  ⟨MultiAsset.gen_jump_spec rng, MiniPilot.mini_gen_jump_spec rng⟩

/-- C10: in the multi-asset app, for every round `2 ≤ t ≤ NUM_ROUNDS`,
`asset_b_jump_now` is true iff round `t - 1` is in the jump-period
set of the trap asset (a non-jump-period return is either the crash value
`-0.45` or clamped to at most `0.25`, so it can never equal `+0.50`);
for round 1 it is always false. -/
theorem claim_C10 (rng : Rng) :
    (∀ t : ℕ, 2 ≤ t → t ≤ MultiAsset.NUM_ROUNDS →
      (MultiAsset.asset_b_jump_now (MultiAsset.gen_price_paths rng).returns_b t = true ↔
        (t - 1) ∈ (MultiAsset.gen_price_paths rng).jump_periods_b)) ∧
    MultiAsset.asset_b_jump_now (MultiAsset.gen_price_paths rng).returns_b 1 = false := by
  constructor
  · intro t h2 hN
    have hne : t ≠ 1 := by omega
    rw [MultiAsset.asset_b_jump_now, if_neg hne, decide_eq_true_eq]
    dsimp only [MultiAsset.gen_price_paths]
    have he : 1 + (t - 2) = t - 1 := by omega
    constructor
    · intro hv
      by_contra hnm
      exact MultiAsset.genLoop_rb_nonjump rng _ MultiAsset.NUM_ROUNDS (t - 2) 1 _
        10 10 10 10 false (by omega) (by rw [he]; exact hnm) hv
    · intro hm
      exact MultiAsset.genLoop_rb_jump rng _ MultiAsset.NUM_ROUNDS (t - 2) 1 _
        10 10 10 10 false (by omega) (by rw [he]; exact hm)
  · rw [MultiAsset.asset_b_jump_now, if_pos rfl]

theorem claim_C10_witness :
    (MultiAsset.asset_b_jump_now
        (MultiAsset.gen_price_paths (witnessSeed "S1")).returns_b 14 = true ↔
      13 ∈ (MultiAsset.gen_price_paths (witnessSeed "S1")).jump_periods_b) ∧
    MultiAsset.asset_b_jump_now
        (MultiAsset.gen_price_paths (witnessSeed "S1")).returns_b 1 = false :=
  ⟨(claim_C10 (witnessSeed "S1")).1 14 (by norm_num) (by norm_num [MultiAsset.NUM_ROUNDS]),
   (claim_C10 (witnessSeed "S1")).2⟩

namespace MultiAsset

theorem genLoop_pa_cons (rng : Rng) (jumps : List ℕ) (period fuel k : ℕ)
    (la lb lc ld : ℚ) (pj : Bool) :
    ∃ tl, (genLoop rng jumps period (fuel + 1) k la lb lc ld pj).pa =
      round2 (la * (1 + (1 / 100 + (2 / 100) * rng.z k))) :: tl :=
  ⟨_, rfl⟩

end MultiAsset

/-- C2 (amended): the generator clamps only the assets it floors —
trap asset B and high-volatility asset D in the multi-asset app, and
asset B in the mini-pilot app; every generated price of those assets is
≥ 0.10, for every stream. -/
theorem claim_C2 (rng : Rng) :
    (∀ p ∈ (MultiAsset.gen_price_paths rng).prices_b, 1 / 10 ≤ p) ∧
    (∀ p ∈ (MultiAsset.gen_price_paths rng).prices_d, 1 / 10 ≤ p) ∧
    (∀ p ∈ (MiniPilot.gen_price_paths rng).prices_b, 1 / 10 ≤ p) := by
  dsimp only [MultiAsset.gen_price_paths, MiniPilot.gen_price_paths]
  refine ⟨?_, ?_, ?_⟩ <;> intro p hp
  · rcases List.mem_cons.mp hp with h | h
    · rw [h]; norm_num
    · exact MultiAsset.genLoop_pb_floor rng _ _ _ _ _ _ _ _ _ p h
  · rcases List.mem_cons.mp hp with h | h
    · rw [h]; norm_num
    · exact MultiAsset.genLoop_pd_floor rng _ _ _ _ _ _ _ _ _ p h
  · rcases List.mem_cons.mp hp with h | h
    · rw [h]; norm_num
    · exact MiniPilot.mini_genLoop_pb_floor rng _ _ _ _ _ _ _ p h

/-- C2 (counterexample): the claim as stated — every generated price of
every asset is ≥ 0.10 for every valid stream — is false: with uniform
draws `1/2` and Gaussian z-scores `-100`, the safe-asset round-2
price is `round(10 * (1 - 1.99), 2) = -9.90`, because the generator
applies no floor to assets A and C. -/
theorem claim_C2_counterexample :
    ¬ (∀ rng : Rng, (∀ k, 0 ≤ rng.u k ∧ rng.u k < 1) →
        (∀ p ∈ (MultiAsset.gen_price_paths rng).prices_a, 1 / 10 ≤ p) ∧
        (∀ p ∈ (MultiAsset.gen_price_paths rng).prices_b, 1 / 10 ≤ p) ∧
        (∀ p ∈ (MultiAsset.gen_price_paths rng).prices_c, 1 / 10 ≤ p) ∧
        (∀ p ∈ (MultiAsset.gen_price_paths rng).prices_d, 1 / 10 ≤ p) ∧
        (∀ p ∈ (MiniPilot.gen_price_paths rng).prices_a, 1 / 10 ≤ p) ∧
        (∀ p ∈ (MiniPilot.gen_price_paths rng).prices_b, 1 / 10 ≤ p)) := by
  intro h
  have hvalid : ∀ k, 0 ≤ badRng.u k ∧ badRng.u k < 1 := by
    intro k
    constructor <;> norm_num [badRng]
  obtain ⟨ha, _⟩ := h badRng hvalid
  obtain ⟨tl, ht⟩ := MultiAsset.genLoop_pa_cons badRng
    (MultiAsset.select_jump_periods badRng 0).1 1 24
    (MultiAsset.select_jump_periods badRng 0).2 10 10 10 10 false
  have hmem : round2 ((10 : ℚ) *
      (1 + (1 / 100 + (2 / 100) * badRng.z (MultiAsset.select_jump_periods badRng 0).2))) ∈
      (MultiAsset.gen_price_paths badRng).prices_a := by
    show round2 ((10 : ℚ) *
        (1 + (1 / 100 + (2 / 100) * badRng.z (MultiAsset.select_jump_periods badRng 0).2))) ∈
      10 :: (MultiAsset.genLoop badRng (MultiAsset.select_jump_periods badRng 0).1 1 (24 + 1)
        (MultiAsset.select_jump_periods badRng 0).2 10 10 10 10 false).pa
    rw [ht]
    exact List.mem_cons_of_mem _ (List.mem_cons_self _ _)
  have hle := ha _ hmem
  have hval : round2 ((10 : ℚ) *
      (1 + (1 / 100 + (2 / 100) * badRng.z (MultiAsset.select_jump_periods badRng 0).2))) =
      -99 / 10 := by
    show round2 ((10 : ℚ) * (1 + (1 / 100 + (2 / 100) * (-100)))) = -99 / 10
    rw [show ((10 : ℚ) * (1 + (1 / 100 + (2 / 100) * (-100)))) = ((-990 : ℤ) : ℚ) / 100 by
      norm_num]
    unfold round2
    rw [mul_div_cancel₀ ((-990 : ℤ) : ℚ) (by norm_num), round_intCast]
    norm_num
  rw [hval] at hle
  norm_num at hle
